import Mathlib

set_option maxRecDepth 8000

/-!
Shallow embedding of the bounty escrow contract
(src/contracts/bounty_escrow/contracts/escrow/src/lib.rs and
src/contracts/bounty_escrow/contracts/escrow/src/security/reentrancy_guard.rs).

Modelling conventions:
* Addresses (Soroban `Address`) and token identifiers are `Nat`.
* `i128` amounts are `Int`; overflow is modelled explicitly (`i128CheckedMul`)
  exactly where the source uses checked arithmetic (`calculate_fee`,
  the batch total accumulator).  `u64` timestamps are `Nat` with saturating
  addition where the source uses `saturating_add`.
* Contract storage, the host clock and the token-contract ledger are gathered
  in one `World` record.  Each contract entry point is a function
  `World → ... → Res`: `Res.ok w'` models a successful invocation,
  `Res.err e` a `Result::Err` return and `Res.trap` a host panic
  (`panic!`, a failed `.unwrap()`, or a failed token sub-call).
  On the Soroban host an error return or a trap rolls the whole invocation
  back, so `Res.err`/`Res.trap` carry no state: the stored state is the
  caller's unchanged `World`.
* `require_auth` calls are modelled as always succeeding (the caller is
  assumed to have signed for the addresses it passes); event emission,
  monitoring counters and TTL extension calls have no observable effect on
  any state the claims mention and are elided.
-/

/-- `i128::MAX`. -/
def I128_MAX : Int := 2 ^ 127 - 1

/-- `i128::MIN`. -/
def I128_MIN : Int := -(2 ^ 127)

/-- `u64::MAX`. -/
def U64_MAX : Nat := 2 ^ 64 - 1

/-- Rust `i128::checked_mul`: `none` exactly when the product leaves the
`i128` range. -/
def i128CheckedMul (a b : Int) : Option Int :=
  if I128_MIN ≤ a * b ∧ a * b ≤ I128_MAX then some (a * b) else none

/-- Rust `i128::checked_add`: `none` exactly when the sum leaves the
`i128` range. -/
def i128CheckedAdd (a b : Int) : Option Int :=
  if I128_MIN ≤ a + b ∧ a + b ≤ I128_MAX then some (a + b) else none

/-- Rust `u64::saturating_add` (both operands already below `2^64`). -/
def u64SatAdd (a b : Nat) : Nat := min (a + b) U64_MAX

/-- Lookup in an association list, mirroring `soroban_sdk::Map::get`
(keys are unique by construction of `mapSet`). -/
def mapGet {κ α : Type} [DecidableEq κ] : List (κ × α) → κ → Option α
  | [], _ => none
  | (k', v') :: rest, k => if k' = k then some v' else mapGet rest k

/-- Insert-or-replace in an association list, mirroring
`soroban_sdk::Map::set` / `storage().set`. -/
def mapSet {κ α : Type} [DecidableEq κ] : List (κ × α) → κ → α → List (κ × α)
  | [], k, v => [(k, v)]
  | (k', v') :: rest, k, v =>
      if k' = k then (k, v) :: rest else (k', v') :: mapSet rest k v

/-- Key removal in an association list, mirroring
`soroban_sdk::Map::remove` / `storage().remove`. -/
def mapRemove {κ α : Type} [DecidableEq κ] : List (κ × α) → κ → List (κ × α)
  | [], _ => []
  | (k', v') :: rest, k =>
      if k' = k then mapRemove rest k else (k', v') :: mapRemove rest k

/-- `enum Error` of the contract (`lib.rs`). -/
inductive Error where
  | AlreadyInitialized
  | NotInitialized
  | BountyExists
  | BountyNotFound
  | FundsNotLocked
  | DeadlineNotPassed
  | Unauthorized
  | TokenNotWhitelisted
  | TokenAlreadyWhitelisted
  | InvalidFeeRate
  | FeeRecipientNotSet
  | InvalidBatchSize
  | ContractPaused
  | DuplicateBountyId
  | InvalidAmount
  | InvalidDeadline
  | InsufficientFunds
  | RefundNotApproved
  | BatchSizeMismatch
  | InvalidDeadlineExtension
  | MetadataTooLarge
  | ReentrantCall
  | ParticipantNotAllowed
  | ActionNotFound
  | ActionNotReady
  | InvalidTimeLock
deriving DecidableEq, Repr

/-- `enum EscrowStatus` (`lib.rs`). -/
inductive EscrowStatus where
  | Locked
  | Released
  | Refunded
  | PartiallyRefunded
  | PartiallyReleased
deriving DecidableEq, Repr

/-- `enum RefundMode` (`lib.rs`). -/
inductive RefundMode where
  | Full
  | PartialMode
  | Custom
deriving DecidableEq, Repr

/-- `struct PayoutRecord` (`lib.rs`). -/
structure PayoutRecord where
  amount : Int
  recipient : Nat
  timestamp : Nat
deriving DecidableEq, Repr

/-- `struct RefundRecord` (`lib.rs`). -/
structure RefundRecord where
  amount : Int
  recipient : Nat
  mode : RefundMode
  timestamp : Nat
deriving DecidableEq, Repr

/-- `struct RefundApproval` (`lib.rs`). -/
structure RefundApproval where
  bounty_id : Nat
  amount : Int
  recipient : Nat
  mode : RefundMode
  approved_by : Nat
  approved_at : Nat
deriving DecidableEq, Repr

/-- `struct FeeConfig` (`lib.rs`). -/
structure FeeConfig where
  lock_fee_rate : Int
  release_fee_rate : Int
  fee_recipient : Nat
  fee_enabled : Bool
deriving DecidableEq, Repr

/-- `struct AmountLimits` (`lib.rs`). -/
structure AmountLimits where
  min_lock_amount : Int
  max_lock_amount : Int
  min_payout : Int
  max_payout : Int
deriving DecidableEq, Repr

/-- `struct Escrow` (`lib.rs`): `token_balances` is the per-asset ledger
(`Map<Address, i128>`). -/
structure Escrow where
  depositor : Nat
  amount : Int
  status : EscrowStatus
  deadline : Nat
  token : Nat
  refund_history : List RefundRecord
  remaining_amount : Int
  token_address : Nat
  token_balances : List (Nat × Int)
  payout_history : List PayoutRecord
deriving DecidableEq, Repr

/-- `struct LockFundsItem` (`lib.rs`, the definition used by
`batch_lock_funds`, with the optional token). -/
structure LockFundsItem where
  bounty_id : Nat
  depositor : Nat
  amount : Int
  deadline : Nat
  token_address : Option Nat
deriving DecidableEq, Repr

/-- `struct ReleaseFundsItem` (`lib.rs`). -/
structure ReleaseFundsItem where
  bounty_id : Nat
  contributor : Nat
deriving DecidableEq, Repr

/-- `anti_abuse::AntiAbuseConfig` (`lib.rs`). -/
structure AntiAbuseConfig where
  window_size : Nat
  max_operations : Nat
  cooldown_period : Nat
deriving DecidableEq, Repr

/-- `anti_abuse::AddressState` (`lib.rs`). -/
structure AddressState where
  last_operation_timestamp : Nat
  window_start_timestamp : Nat
  operation_count : Nat
deriving DecidableEq, Repr

/-- `const MAX_BATCH_SIZE` (`lib.rs`). -/
def MAX_BATCH_SIZE : Nat := 100

/-- `const BASIS_POINTS` (`lib.rs`). -/
def BASIS_POINTS : Int := 10000

/-- `const MAX_FEE_RATE` (`lib.rs`). -/
def MAX_FEE_RATE : Int := 1000

/-- The whole observable state: host clock, token-contract ledger
(balances keyed by `(token, holder)`), and the contract's instance and
persistent storage entries that the escrow operations read or write. -/
structure World where
  now : Nat
  contract_addr : Nat
  balances : List ((Nat × Nat) × Int)
  admin : Option Nat
  token : Option Nat
  escrows : List (Nat × Escrow)
  refund_approvals : List (Nat × RefundApproval)
  fee_config : Option FeeConfig
  amount_limits : Option AmountLimits
  token_whitelist : List Nat
  registered_tokens : List Nat
  re_guard : Bool
  is_paused : Bool
  bounty_registry : List Nat
  blacklist : List Nat
  whitelist : List Nat
  whitelist_mode : Bool
  abuse_state : List (Nat × AddressState)
  abuse_whitelist : List Nat
  abuse_config : Option AntiAbuseConfig
deriving DecidableEq, Repr

/-- Result of one contract invocation: `ok` carries the post-state,
`err` a returned `Error`, `trap` a host panic.  The host rolls back on
`err` and `trap`, so they carry no state. -/
inductive Res where
  | ok : World → Res
  | err : Error → Res
  | trap : Res
deriving DecidableEq, Repr

def Res.bind (r : Res) (f : World → Res) : Res :=
  match r with
  | .ok w => f w
  | .err e => .err e
  | .trap => .trap

def Res.isOk : Res → Bool
  | .ok _ => true
  | _ => false

def Res.isTrap : Res → Bool
  | .trap => true
  | _ => false

/-- The post-state of a successful invocation, if any. -/
def resWorld : Res → Option World
  | .ok w => some w
  | _ => none

/-- The escrow stored under `id` after a successful invocation. -/
def escrowAfter (r : Res) (id : Nat) : Option Escrow :=
  (resWorld r).bind fun w => mapGet w.escrows id

/-- `token::Client::balance(holder)` for token `tok`. -/
def balance_of (w : World) (tok holder : Nat) : Int :=
  (mapGet w.balances (tok, holder)).getD 0

/-- The balance of `tok` held in `holder` after a successful invocation. -/
def balanceAfter (r : Res) (tok holder : Nat) : Option Int :=
  (resWorld r).map fun w => balance_of w tok holder

/-- `token::Client::transfer(from, to, amount)`: fails (the sub-call traps,
hence `none`) on a negative amount or an insufficient source balance. -/
def token_transfer (w : World) (tok from_ to_ : Nat) (amt : Int) : Option World :=
  if amt < 0 then none
  else if balance_of w tok from_ < amt then none
  else
    let w1 := { w with balances := mapSet w.balances (tok, from_) (balance_of w tok from_ - amt) }
    some { w1 with balances := mapSet w1.balances (tok, to_) (balance_of w1 tok to_ + amt) }

/-- `calculate_fee` (`lib.rs` lines 1172-1180): basis-point fee with
`checked_mul`/`checked_div` and `unwrap_or(0)`, so an `i128` overflow of
`amount * fee_rate` silently yields a zero fee. -/
def calculate_fee (amount fee_rate : Int) : Int :=
  if fee_rate = 0 then 0
  else
    match i128CheckedMul amount fee_rate with
    | some p => Int.tdiv p BASIS_POINTS
    | none => 0

/-- `get_fee_config_internal` (`lib.rs`): defaults to fees disabled with the
admin as recipient. -/
def get_fee_config_internal (w : World) : FeeConfig :=
  match w.fee_config with
  | some f => f
  | none =>
      { lock_fee_rate := 0, release_fee_rate := 0,
        fee_recipient := w.admin.getD 0, fee_enabled := false }

/-- `get_amount_limits` (`lib.rs`): defaults to `1 ..= i128::MAX`. -/
def get_amount_limits (w : World) : AmountLimits :=
  match w.amount_limits with
  | some l => l
  | none =>
      { min_lock_amount := 1, max_lock_amount := I128_MAX,
        min_payout := 1, max_payout := I128_MAX }

/-- `is_paused_internal` (`lib.rs`). -/
def is_paused_internal (w : World) : Bool := w.is_paused

/-- `is_token_registered` (`lib.rs`): the default token, or any token with a
`TokenWhitelist` entry. -/
def is_token_registered (w : World) (tok : Nat) : Bool :=
  (match w.token with
   | some d => tok = d
   | none => false)
  || tok ∈ w.token_whitelist

/-- Modelled from the spec: `is_participant_allowed` lives in the
repository's `blacklist.rs`, which is not among the staged source files.
Per the contract's doc comments (`lib.rs` lines 1788-1791 and 1850-1853):
blacklisted addresses can never participate; in whitelist-only mode only
whitelisted addresses can participate, otherwise every non-blacklisted
address can. -/
def is_participant_allowed (w : World) (a : Nat) : Bool :=
  if w.whitelist_mode then a ∈ w.whitelist ∧ a ∉ w.blacklist
  else a ∉ w.blacklist

/-- `anti_abuse::get_config` (`lib.rs`): stored config or the defaults. -/
def anti_abuse_get_config (w : World) : AntiAbuseConfig :=
  (w.abuse_config).getD
    { window_size := 3600, max_operations := 10, cooldown_period := 60 }

/-- `anti_abuse::check_rate_limit` (`lib.rs` lines 393-446).  NOTE: on a
cooldown violation or an exhausted window the source calls `panic!`, not an
error return, hence `Res.trap`. -/
def check_rate_limit (w : World) (address : Nat) : Res :=
  if address ∈ w.abuse_whitelist then .ok w
  else
    let config := anti_abuse_get_config w
    let state := (mapGet w.abuse_state address).getD
      ({ last_operation_timestamp := 0, window_start_timestamp := w.now,
         operation_count := 0 })
    if state.last_operation_timestamp > 0 ∧
        w.now < u64SatAdd state.last_operation_timestamp config.cooldown_period then
      .trap
    else
      match (if w.now ≥ u64SatAdd state.window_start_timestamp config.window_size then
               some ({ state with window_start_timestamp := w.now, operation_count := 1 })
             else if state.operation_count ≥ config.max_operations then none
             else some ({ state with operation_count := state.operation_count + 1 })) with
      | none => .trap
      | some st =>
          let st2 : AddressState := { st with last_operation_timestamp := w.now }
          .ok { w with abuse_state := mapSet w.abuse_state address st2 }

/-- `init` (`lib.rs` lines 958-1044): one-time setup of admin, default
token, token whitelist, fee config and amount limits. -/
def init (w0 : World) (admin tok : Nat) : Res :=
  (check_rate_limit w0 admin).bind fun w =>
  if w.admin.isSome then .err .AlreadyInitialized
  else
    let fee : FeeConfig :=
      { lock_fee_rate := 0, release_fee_rate := 0,
        fee_recipient := admin, fee_enabled := false }
    let limits : AmountLimits :=
      { min_lock_amount := 1, max_lock_amount := I128_MAX,
        min_payout := 1, max_payout := I128_MAX }
    let wl := if tok ∈ w.token_whitelist then w.token_whitelist
              else w.token_whitelist ++ [tok]
    .ok { w with admin := some admin, token := some tok,
                 token_whitelist := wl, registered_tokens := [tok],
                 fee_config := some fee, amount_limits := some limits }

/-- The token-resolution block of `lock_funds_internal`
(`lib.rs` lines 1978-1990). -/
def resolve_lock_token (w : World) (token_address : Option Nat) : Except Error Nat :=
  match token_address with
  | some tok =>
      if is_token_registered w tok then .ok tok else .error .TokenNotWhitelisted
  | none =>
      match w.token with
      | some t => .ok t
      | none => .error .NotInitialized

/-- Everything `lock_funds_internal` does after acquiring the reentrancy
guard (`w` is the state with the guard flag set): amount and deadline
validation, initialization and uniqueness checks, token resolution, fee
computation, the two token transfers, then the escrow-record creation and
the registry update.  The second storage read of `Escrow(bounty_id)` (and
its add-to-existing branch) is translated verbatim even though the
earlier `BountyExists` check makes it always take the fresh-escrow
path. -/
def lock_funds_body (w : World) (depositor bounty_id : Nat) (amount : Int)
    (deadline : Nat) (token_address : Option Nat) : Res :=
  if amount ≤ 0 then .err .InvalidAmount
  else
  let limits := get_amount_limits w
  if amount < limits.min_lock_amount ∨ amount > limits.max_lock_amount then .err .InvalidAmount
  else if deadline ≤ w.now then .err .InvalidDeadline
  else if w.admin.isNone then .err .NotInitialized
  else if (mapGet w.escrows bounty_id).isSome then .err .BountyExists
  else
  match resolve_lock_token w token_address with
  | .error e => .err e
  | .ok token_addr =>
  let fee_config := get_fee_config_internal w
  let fee_amount :=
    if fee_config.fee_enabled ∧ fee_config.lock_fee_rate > 0 then
      calculate_fee amount fee_config.lock_fee_rate
    else 0
  let net_amount := amount - fee_amount
  match token_transfer w token_addr depositor w.contract_addr net_amount with
  | none => .trap
  | some w =>
  match (if fee_amount > 0 then
           token_transfer w token_addr depositor fee_config.fee_recipient fee_amount
         else some w) with
  | none => .trap
  | some w =>
  let escrow : Escrow :=
    match mapGet w.escrows bounty_id with
    | some e => e
    | none =>
        { depositor := depositor, amount := net_amount, status := .Locked,
          deadline := deadline, token := token_addr, refund_history := [],
          remaining_amount := net_amount, token_address := token_addr,
          token_balances := [(token_addr, net_amount)], payout_history := [] }
  let escrow :=
    if (mapGet w.escrows bounty_id).isSome then
      let current_balance := (mapGet escrow.token_balances token_addr).getD 0
      { escrow with
        token_balances := mapSet escrow.token_balances token_addr (current_balance + net_amount),
        remaining_amount := escrow.remaining_amount + net_amount,
        amount := escrow.amount + net_amount }
    else escrow
  .ok { w with escrows := mapSet w.escrows bounty_id escrow,
               bounty_registry := w.bounty_registry ++ [bounty_id],
               re_guard := false }

/-- `lock_funds_internal` (`lib.rs` lines 1924-2091), in the source's check
order: rate limit, participant filter, pause, auth, reentrancy guard
acquisition, then `lock_funds_body`. -/
def lock_funds_internal (w0 : World) (depositor bounty_id : Nat) (amount : Int)
    (deadline : Nat) (token_address : Option Nat) : Res :=
  (check_rate_limit w0 depositor).bind fun w =>
  if ¬ is_participant_allowed w depositor then .err .ParticipantNotAllowed
  else if is_paused_internal w then .err .ContractPaused
  else if w.re_guard then .err .ReentrantCall
  else lock_funds_body { w with re_guard := true }
         depositor bounty_id amount deadline token_address

/-- The token-resolution block of `release_funds` (`lib.rs` lines
2276-2287): an explicitly requested token must have an entry in the
escrow's balance map; otherwise the escrow's primary token is used. -/
def resolve_release_token (escrow : Escrow) (token_address : Option Nat) :
    Except Error Nat :=
  match token_address with
  | some tok =>
      if (mapGet escrow.token_balances tok).isNone then .error .InvalidAmount
      else .ok tok
  | none => .ok escrow.token_address

/-- The payout-amount resolution block of `release_funds` (`lib.rs` lines
2298-2323): a requested amount must be positive and at most
`remaining_amount`; otherwise the full remaining amount is paid. -/
def resolve_payout_amount (escrow : Escrow) (amount : Option Int) :
    Except Error Int :=
  match amount with
  | some amt =>
      if amt ≤ 0 then .error .InvalidAmount
      else if amt > escrow.remaining_amount then .error .InvalidAmount
      else .ok amt
  | none => .ok escrow.remaining_amount

/-- The release-fee computed in `release_funds` (`lib.rs` lines
2329-2337): `calculate_fee` when fees are enabled with a positive release
rate, else 0. -/
def release_fee_amount (w : World) (payout_amount : Int) : Int :=
  let fee_config := get_fee_config_internal w
  if fee_config.fee_enabled ∧ fee_config.release_fee_rate > 0 then
    calculate_fee payout_amount fee_config.release_fee_rate
  else 0

/-- Everything `release_funds` does after the pause check: rate limit on
the admin, the escrow lookup and status check, token and amount
resolution, fee computation, the balance check, the transfers, then the
state update.  NOTE (the source as it is): after transferring
`net_amount` (+ fee) computed from the requested `payout_amount`, the
state update zeroes the whole `token_balance` and subtracts
`token_balance` — not `payout_amount` — from `remaining_amount` and
`amount`. -/
def release_funds_body (w0 : World) (admin bounty_id contributor : Nat)
    (token_address : Option Nat) (amount : Option Int) : Res :=
  (check_rate_limit w0 admin).bind fun w =>
  match mapGet w.escrows bounty_id with
  | none => .err .BountyNotFound
  | some escrow =>
  if escrow.status ≠ .Locked ∧ escrow.status ≠ .PartiallyReleased then .err .FundsNotLocked
  else
  match resolve_release_token escrow token_address with
  | .error e => .err e
  | .ok token_addr =>
  let token_balance := (mapGet escrow.token_balances token_addr).getD 0
  if token_balance ≤ 0 then .err .InvalidAmount
  else
  match resolve_payout_amount escrow amount with
  | .error e => .err e
  | .ok payout_amount =>
  let fee_config := get_fee_config_internal w
  let fee_amount := release_fee_amount w payout_amount
  let net_amount := payout_amount - fee_amount
  if balance_of w token_addr w.contract_addr < net_amount + fee_amount then .err .InsufficientFunds
  else
  let limits := get_amount_limits w
  if net_amount < limits.min_payout ∨ net_amount > limits.max_payout then .err .InvalidAmount
  else
  match token_transfer w token_addr w.contract_addr contributor net_amount with
  | none => .trap
  | some w =>
  match (if fee_amount > 0 then
           token_transfer w token_addr w.contract_addr fee_config.fee_recipient fee_amount
         else some w) with
  | none => .trap
  | some w =>
  let escrow := { escrow with
    token_balances := mapSet escrow.token_balances token_addr 0,
    remaining_amount := escrow.remaining_amount - token_balance,
    amount := escrow.amount - token_balance }
  let escrow := { escrow with
    status := if escrow.remaining_amount = 0 then EscrowStatus.Released
              else EscrowStatus.PartiallyReleased }
  .ok { w with escrows := mapSet w.escrows bounty_id escrow, re_guard := false }

/-- `release_funds` (`lib.rs` lines 2227-2405): participant filter,
reentrancy guard acquisition, initialization and pause checks, then
`release_funds_body`.  (The admin and pause reads happen after the guard
flag is set in the source; neither depends on the flag.) -/
def release_funds (w0 : World) (bounty_id contributor : Nat)
    (token_address : Option Nat) (amount : Option Int) : Res :=
  if ¬ is_participant_allowed w0 contributor then .err .ParticipantNotAllowed
  else if w0.re_guard then .err .ReentrantCall
  else
  match w0.admin with
  | none => .err .NotInitialized
  | some admin =>
  if is_paused_internal w0 then .err .ContractPaused
  else release_funds_body { w0 with re_guard := true }
         admin bounty_id contributor token_address amount

/-- `approve_refund` (`lib.rs` lines 2407-2454): stores (overwriting any
prior) the single pending `RefundApproval` for the bounty. -/
def approve_refund (w : World) (bounty_id : Nat) (amount : Int)
    (recipient : Nat) (mode : RefundMode) : Res :=
  match w.admin with
  | none => .err .NotInitialized
  | some admin =>
  match mapGet w.escrows bounty_id with
  | none => .err .BountyNotFound
  | some escrow =>
  if escrow.status ≠ .Locked ∧ escrow.status ≠ .PartiallyRefunded then .err .FundsNotLocked
  else if amount ≤ 0 ∨ amount > escrow.remaining_amount then .err .InvalidAmount
  else
  let approval : RefundApproval :=
    { bounty_id := bounty_id, amount := amount, recipient := recipient,
      mode := mode, approved_by := admin, approved_at := w.now }
  .ok { w with refund_approvals := mapSet w.refund_approvals bounty_id approval }

/-- `expire` (`lib.rs` lines 2459-2535).  NOTE (the source as it is): it
acquires no reentrancy guard, and the state update sets
`remaining_amount := 0` and pushes the refund record without touching
`token_balances` or `amount`. -/
def expire (w : World) (bounty_id : Nat) : Res :=
  if is_paused_internal w then .err .ContractPaused
  else
  match mapGet w.escrows bounty_id with
  | none => .err .BountyNotFound
  | some escrow =>
  if escrow.status ≠ .Locked ∧ escrow.status ≠ .PartiallyRefunded then .err .FundsNotLocked
  else if w.now < escrow.deadline then .err .DeadlineNotPassed
  else
  let refund_amount := escrow.remaining_amount
  if refund_amount ≤ 0 then .err .InvalidAmount
  else
  let token_addr := escrow.token_address
  if balance_of w token_addr w.contract_addr < refund_amount then .err .InsufficientFunds
  else
  match token_transfer w token_addr w.contract_addr escrow.depositor refund_amount with
  | none => .trap
  | some w =>
  let record : RefundRecord :=
    { amount := refund_amount, recipient := escrow.depositor,
      mode := .Full, timestamp := w.now }
  let escrow := { escrow with
    refund_history := escrow.refund_history ++ [record],
    remaining_amount := 0,
    status := .Refunded }
  .ok { w with escrows := mapSet w.escrows bounty_id escrow }

/-- The `match mode` block of `refund_internal` (`lib.rs` lines 2600-2645):
resolves the refund amount and recipient; a Custom refund before the
deadline requires a stored approval whose amount, recipient and mode all
equal the request, and removes it from storage (the returned `World`). -/
def refund_params (w : World) (escrow : Escrow) (bounty_id : Nat)
    (amount : Option Int) (recipient : Option Nat) (mode : RefundMode)
    (is_before_deadline : Bool) (token_balance : Int) :
    Except Error (Int × Nat × World) :=
  match mode with
  | .Full =>
      if is_before_deadline then .error .DeadlineNotPassed
      else .ok (token_balance, escrow.depositor, w)
  | .PartialMode =>
      if is_before_deadline then .error .DeadlineNotPassed
      else .ok (amount.getD token_balance, escrow.depositor, w)
  | .Custom =>
      match amount with
      | none => .error .InvalidAmount
      | some refund_amount =>
      match recipient with
      | none => .error .InvalidAmount
      | some refund_recipient =>
      if is_before_deadline then
        match mapGet w.refund_approvals bounty_id with
        | none => .error .RefundNotApproved
        | some approval =>
            if approval.amount ≠ refund_amount ∨ approval.recipient ≠ refund_recipient
                ∨ approval.mode ≠ mode then
              .error .RefundNotApproved
            else
              .ok (refund_amount, refund_recipient,
                   { w with refund_approvals := mapRemove w.refund_approvals bounty_id })
      else .ok (refund_amount, refund_recipient, w)

/-- Everything `refund_internal` does after acquiring the reentrancy guard
(`w` is the state with the guard flag set): pause check, escrow lookup
and status check, token resolution, `refund_params`, amount and balance
validation, the transfer, then the state update: it decrements the asset
balance, `remaining_amount` and `amount` by the refund amount, appends
the refund record and moves the status to `Refunded` or
`PartiallyRefunded`. -/
def refund_body (w : World) (bounty_id : Nat) (amount : Option Int)
    (recipient : Option Nat) (mode : RefundMode) (token_address : Option Nat) : Res :=
  if is_paused_internal w then .err .ContractPaused
  else
  match mapGet w.escrows bounty_id with
  | none => .err .BountyNotFound
  | some escrow =>
  if escrow.status ≠ .Locked ∧ escrow.status ≠ .PartiallyRefunded then .err .FundsNotLocked
  else
  let is_before_deadline := decide (w.now < escrow.deadline)
  match (match token_address with
         | some tok =>
             if (mapGet escrow.token_balances tok).isNone then Except.error Error.InvalidAmount
             else Except.ok tok
         | none => Except.ok escrow.token_address) with
  | .error e => .err e
  | .ok token_addr =>
  let token_balance := (mapGet escrow.token_balances token_addr).getD 0
  match refund_params w escrow bounty_id amount recipient mode is_before_deadline token_balance with
  | .error e => .err e
  | .ok (refund_amount, refund_recipient, w) =>
  if refund_amount ≤ 0 ∨ refund_amount > escrow.remaining_amount then .err .InvalidAmount
  else if balance_of w token_addr w.contract_addr < refund_amount then .err .InsufficientFunds
  else
  match token_transfer w token_addr w.contract_addr refund_recipient refund_amount with
  | none => .trap
  | some w =>
  let record : RefundRecord :=
    { amount := refund_amount, recipient := refund_recipient,
      mode := mode, timestamp := w.now }
  let escrow := { escrow with
    token_balances := mapSet escrow.token_balances token_addr (token_balance - refund_amount),
    remaining_amount := escrow.remaining_amount - refund_amount,
    amount := escrow.amount - refund_amount,
    refund_history := escrow.refund_history ++ [record] }
  let escrow := { escrow with
    status := if escrow.remaining_amount = 0 then EscrowStatus.Refunded
              else EscrowStatus.PartiallyRefunded }
  .ok { w with escrows := mapSet w.escrows bounty_id escrow, re_guard := false }

/-- `refund_internal` (`lib.rs` lines 2541-2713): reentrancy guard
acquisition, then `refund_body`. -/
def refund_internal (w0 : World) (bounty_id : Nat) (amount : Option Int)
    (recipient : Option Nat) (mode : RefundMode) (token_address : Option Nat) : Res :=
  if w0.re_guard then .err .ReentrantCall
  else refund_body { w0 with re_guard := true }
         bounty_id amount recipient mode token_address

/-- `extend_refund_deadline` (`lib.rs` lines 2752-2853).  NOTE: the source
reads the admin with a bare `.unwrap()` (line 2800), which panics on an
uninitialized contract, hence `Res.trap` there. -/
def extend_refund_deadline (w : World) (bounty_id new_deadline : Nat) : Res :=
  if is_paused_internal w then .err .ContractPaused
  else
  match mapGet w.escrows bounty_id with
  | none => .err .BountyNotFound
  | some escrow =>
  if escrow.status ≠ .Locked ∧ escrow.status ≠ .PartiallyRefunded then .err .FundsNotLocked
  else if new_deadline ≤ escrow.deadline then .err .InvalidDeadlineExtension
  else
  match w.admin with
  | none => .trap
  | some _ =>
  let escrow := { escrow with deadline := new_deadline }
  .ok { w with escrows := mapSet w.escrows bounty_id escrow }

/-- Validation of one item of `batch_lock_funds` against the whole batch
(the body of the first `for` loop, `lib.rs` lines 3258-3287): unused
bounty id, positive amount, amount limits, no duplicate id inside the
batch.  It returns an error without mutating anything. -/
def validate_lock_item (w : World) (all : List LockFundsItem)
    (item : LockFundsItem) : Option Error :=
  if (mapGet w.escrows item.bounty_id).isSome then some .BountyExists
  else if item.amount ≤ 0 then some .InvalidAmount
  else
    let limits := get_amount_limits w
    if item.amount < limits.min_lock_amount ∨ item.amount > limits.max_lock_amount then
      some .InvalidAmount
    else if 1 < (all.filter (fun other => other.bounty_id = item.bounty_id)).length then
      some .DuplicateBountyId
    else none

/-- The first `for` loop of `batch_lock_funds`: first failing item's error. -/
def validate_lock_items (w : World) (items all : List LockFundsItem) : Option Error :=
  match items with
  | [] => none
  | item :: rest =>
      match validate_lock_item w all item with
      | some e => some e
      | none => validate_lock_items w rest all

/-- The token-resolution block of the execution loop of
`batch_lock_funds` (`lib.rs` lines 3307-3320): an explicit token must be
registered (else `Unauthorized`, discovered only during execution), the
default is the contract's primary token. -/
def resolve_batch_lock_token (w : World) (token_address : Option Nat) :
    Except Error Nat :=
  match token_address with
  | some tok =>
      if is_token_registered w tok then .ok tok
      else .error .Unauthorized
  | none =>
      match w.token with
      | some t => .ok t
      | none => .error .NotInitialized

/-- The lock-fee computed in `batch_lock_funds`' execution loop:
`calculate_fee` when fees are enabled with a positive lock rate, else 0. -/
def lock_fee_amount (w : World) (amount : Int) : Int :=
  let fee_config := get_fee_config_internal w
  if fee_config.fee_enabled ∧ fee_config.lock_fee_rate > 0 then
    calculate_fee amount fee_config.lock_fee_rate
  else 0

/-- The escrow record written by one item of `batch_lock_funds`' execution
loop (`lib.rs` lines 3340-3383): a fresh `Locked` escrow for an unused
bounty id, or (verbatim from the source) the add-to-existing branch. -/
def lock_item_escrow (w : World) (item : LockFundsItem) (token_addr : Nat)
    (net_amount : Int) : Escrow :=
  let escrow : Escrow :=
    match mapGet w.escrows item.bounty_id with
    | some e => e
    | none =>
        { depositor := item.depositor, amount := net_amount, status := .Locked,
          deadline := item.deadline, token := token_addr, refund_history := [],
          remaining_amount := net_amount, token_address := token_addr,
          token_balances := [(token_addr, net_amount)], payout_history := [] }
  if (mapGet w.escrows item.bounty_id).isSome then
    let current_balance := (mapGet escrow.token_balances token_addr).getD 0
    { escrow with
      token_balances := mapSet escrow.token_balances token_addr (current_balance + net_amount),
      remaining_amount := escrow.remaining_amount + net_amount,
      amount := escrow.amount + net_amount }
  else escrow

/-- The execution `for` loop of `batch_lock_funds` (`lib.rs` lines
3305-3395): per item, token resolution (unregistered explicit tokens fail
with `Unauthorized` here, during execution), fee computation, the
transfers, and the escrow-record write.  As in `lock_funds_internal`, the
add-to-existing-escrow branch is translated verbatim. -/
def exec_lock_items (w : World) (items : List LockFundsItem) : Res :=
  match items with
  | [] => .ok w
  | item :: rest =>
    match resolve_batch_lock_token w item.token_address with
    | .error e => .err e
    | .ok token_addr =>
    let fee_amount := lock_fee_amount w item.amount
    let net_amount := item.amount - fee_amount
    match token_transfer w token_addr item.depositor w.contract_addr net_amount with
    | none => .trap
    | some w =>
    match (if fee_amount > 0 then
             token_transfer w token_addr item.depositor
               (get_fee_config_internal w).fee_recipient fee_amount
           else some w) with
    | none => .trap
    | some w =>
    exec_lock_items
      { w with escrows := mapSet w.escrows item.bounty_id
                 (lock_item_escrow w item token_addr net_amount) } rest

/-- Everything `batch_lock_funds` does after acquiring the reentrancy
guard: batch size and global checks, then the two phases.  Phase one
(`validate_lock_items`) mutates nothing; phase two performs transfers and
storage writes; any failure anywhere surfaces as `err`/`trap`, which on
the host rolls the whole invocation back.  On success the source returns
the locked count (`items.length`), which no claim depends on. -/
def batch_lock_body (w : World) (items : List LockFundsItem) : Res :=
  if items.length = 0 then .err .InvalidBatchSize
  else if items.length > MAX_BATCH_SIZE then .err .InvalidBatchSize
  else if is_paused_internal w then .err .ContractPaused
  else if w.admin.isNone then .err .NotInitialized
  else
  match validate_lock_items w items items with
  | some e => .err e
  | none =>
  (exec_lock_items w items).bind fun w1 => .ok { w1 with re_guard := false }

/-- `batch_lock_funds` (`lib.rs` lines 3236-3407): reentrancy guard
acquisition, then `batch_lock_body`. -/
def batch_lock_funds (w0 : World) (items : List LockFundsItem) : Res :=
  if w0.re_guard then .err .ReentrantCall
  else batch_lock_body { w0 with re_guard := true } items

/-- Validation of one item of `batch_release_funds` (the body of the first
`for` loop, `lib.rs` lines 3435-3482): escrow exists, status is exactly
`Locked`, fee-adjusted `escrow.amount` within payout limits, no duplicate
bounty id in the batch. -/
def validate_release_item (w : World) (all : List ReleaseFundsItem)
    (item : ReleaseFundsItem) : Option Error :=
  match mapGet w.escrows item.bounty_id with
  | none => some .BountyNotFound
  | some escrow =>
    if escrow.status ≠ .Locked then some .FundsNotLocked
    else
      let net_amount := escrow.amount - release_fee_amount w escrow.amount
      let limits := get_amount_limits w
      if net_amount < limits.min_payout ∨ net_amount > limits.max_payout then
        some .InvalidAmount
      else if 1 < (all.filter (fun other => other.bounty_id = item.bounty_id)).length then
        some .DuplicateBountyId
      else none

/-- The first `for` loop of `batch_release_funds`, accumulating the total
with `checked_add` (overflow surfaces as `InvalidAmount`). -/
def validate_release_items (w : World) (items all : List ReleaseFundsItem)
    (total : Int) : Except Error Int :=
  match items with
  | [] => .ok total
  | item :: rest =>
      match validate_release_item w all item with
      | some e => .error e
      | none =>
          match mapGet w.escrows item.bounty_id with
          | none => .error .BountyNotFound
          | some escrow =>
              match i128CheckedAdd total escrow.amount with
              | none => .error .InvalidAmount
              | some total' => validate_release_items w rest all total'

/-- The escrow update of one item of `batch_release_funds`' execution loop
(`lib.rs` lines 3519-3537): zero the asset balance, subtract the full
`token_balance` from `remaining_amount` and `amount`, and set
`status := Released` only when `remaining_amount` reaches zero (otherwise
the status is left unchanged). -/
def release_item_escrow (escrow : Escrow) (token_addr : Nat)
    (token_balance : Int) : Escrow :=
  let escrow := { escrow with
    token_balances := mapSet escrow.token_balances token_addr 0,
    remaining_amount := escrow.remaining_amount - token_balance,
    amount := escrow.amount - token_balance }
  if escrow.remaining_amount = 0 then { escrow with status := EscrowStatus.Released }
  else escrow

/-- The execution `for` loop of `batch_release_funds` (`lib.rs` lines
3485-3546).  NOTE (the source as it is): it releases the full primary-token
balance (`unwrap_or(remaining_amount)`), performs the transfers with no
prior contract-balance check (an underfunded contract traps), and the
status update is `release_item_escrow`'s. -/
def exec_release_items (w : World) (items : List ReleaseFundsItem) : Res :=
  match items with
  | [] => .ok w
  | item :: rest =>
    match mapGet w.escrows item.bounty_id with
    | none => .trap
    | some escrow =>
    let token_addr := escrow.token_address
    let token_balance := (mapGet escrow.token_balances token_addr).getD escrow.remaining_amount
    let fee_amount := release_fee_amount w token_balance
    let net_amount := token_balance - fee_amount
    match token_transfer w token_addr w.contract_addr item.contributor net_amount with
    | none => .trap
    | some w =>
    match (if fee_amount > 0 then
             token_transfer w token_addr w.contract_addr
               (get_fee_config_internal w).fee_recipient fee_amount
           else some w) with
    | none => .trap
    | some w =>
    exec_release_items
      { w with escrows := mapSet w.escrows item.bounty_id
                 (release_item_escrow escrow token_addr token_balance) } rest

/-- Everything `batch_release_funds` does after acquiring the reentrancy
guard: batch size and global checks, validation phase, then execution
phase. -/
def batch_release_body (w : World) (items : List ReleaseFundsItem) : Res :=
  if items.length = 0 then .err .InvalidBatchSize
  else if items.length > MAX_BATCH_SIZE then .err .InvalidBatchSize
  else if is_paused_internal w then .err .ContractPaused
  else if w.admin.isNone then .err .NotInitialized
  else
  match validate_release_items w items items 0 with
  | .error e => .err e
  | .ok _ =>
  (exec_release_items w items).bind fun w1 => .ok { w1 with re_guard := false }

/-- `batch_release_funds` (`lib.rs` lines 3409-3558): reentrancy guard
acquisition, then `batch_release_body`. -/
def batch_release_funds (w0 : World) (items : List ReleaseFundsItem) : Res :=
  if w0.re_guard then .err .ReentrantCall
  else batch_release_body { w0 with re_guard := true } items

/-- One invocation of any escrow-record-touching public operation. -/
inductive Op where
  | opInit (admin tok : Nat)
  | opLock (depositor bounty_id : Nat) (amount : Int) (deadline : Nat) (tok : Option Nat)
  | opRelease (bounty_id contributor : Nat) (tok : Option Nat) (amount : Option Int)
  | opApprove (bounty_id : Nat) (amount : Int) (recipient : Nat) (mode : RefundMode)
  | opExpire (bounty_id : Nat)
  | opRefund (bounty_id : Nat) (amount : Option Int) (recipient : Option Nat)
      (mode : RefundMode) (tok : Option Nat)
  | opExtend (bounty_id new_deadline : Nat)
  | opBatchLock (items : List LockFundsItem)
  | opBatchRelease (items : List ReleaseFundsItem)
deriving DecidableEq, Repr

/-- Dispatch of `Op` to the corresponding contract entry point. -/
def step (w : World) : Op → Res
  | .opInit admin tok => init w admin tok
  | .opLock depositor bounty_id amount deadline tok =>
      lock_funds_internal w depositor bounty_id amount deadline tok
  | .opRelease bounty_id contributor tok amount =>
      release_funds w bounty_id contributor tok amount
  | .opApprove bounty_id amount recipient mode =>
      approve_refund w bounty_id amount recipient mode
  | .opExpire bounty_id => expire w bounty_id
  | .opRefund bounty_id amount recipient mode tok =>
      refund_internal w bounty_id amount recipient mode tok
  | .opExtend bounty_id new_deadline => extend_refund_deadline w bounty_id new_deadline
  | .opBatchLock items => batch_lock_funds w items
  | .opBatchRelease items => batch_release_funds w items

/-- The spec's status-transition graph (§4.1): the valid strict edges
`Locked → {PartiallyReleased, Released, PartiallyRefunded, Refunded}`,
`PartiallyReleased → {PartiallyReleased, Released}`,
`PartiallyRefunded → {PartiallyRefunded, Refunded}`. -/
def statusEdge : EscrowStatus → EscrowStatus → Bool
  | .Locked, .PartiallyReleased => true
  | .Locked, .Released => true
  | .Locked, .PartiallyRefunded => true
  | .Locked, .Refunded => true
  | .PartiallyReleased, .PartiallyReleased => true
  | .PartiallyReleased, .Released => true
  | .PartiallyRefunded, .PartiallyRefunded => true
  | .PartiallyRefunded, .Refunded => true
  | _, _ => false

/-- The two terminal statuses of the graph. -/
def terminalStatus : EscrowStatus → Bool
  | .Released => true
  | .Refunded => true
  | _ => false

/-- Sum of the per-asset balances of one escrow (`Σ balance_of` of the
spec's multi-asset ledger invariant). -/
def sumBalances (e : Escrow) : Int := (e.token_balances.map Prod.snd).sum

/-- Sum of the amounts recorded in `refund_history`. -/
def sumRefunds (e : Escrow) : Int := (e.refund_history.map RefundRecord.amount).sum

/-- A representative single-asset escrow: 1000 units of token 2 locked by
depositor 3, deadline 500, no history. -/
def escrowA : Escrow :=
  { depositor := 3, amount := 1000, status := .Locked, deadline := 500,
    token := 2, refund_history := [], remaining_amount := 1000,
    token_address := 2, token_balances := [(2, 1000)], payout_history := [] }

/-- An initialized world at time 10: admin 1, default token 2, contract
address 100 holding the 1000 locked units, depositor 3 holding 5000 more,
escrow `escrowA` stored under bounty id 1. -/
def wLocked : World :=
  { now := 10, contract_addr := 100,
    balances := [((2, 100), 1000), ((2, 3), 5000)],
    admin := some 1, token := some 2,
    escrows := [(1, escrowA)], refund_approvals := [],
    fee_config := none, amount_limits := none,
    token_whitelist := [2], registered_tokens := [2],
    re_guard := false, is_paused := false, bounty_registry := [1],
    blacklist := [], whitelist := [], whitelist_mode := false,
    abuse_state := [], abuse_whitelist := [], abuse_config := none }

/-- An uninitialized world at time 10 where depositor 3 holds 1000 units
of token 2. -/
def wFresh : World :=
  { now := 10, contract_addr := 100, balances := [((2, 3), 1000)],
    admin := none, token := none, escrows := [], refund_approvals := [],
    fee_config := none, amount_limits := none,
    token_whitelist := [], registered_tokens := [],
    re_guard := false, is_paused := false, bounty_registry := [],
    blacklist := [], whitelist := [], whitelist_mode := false,
    abuse_state := [], abuse_whitelist := [], abuse_config := none }

/-- A lock item whose deadline (5) is already in the past at `wLocked.now`
(10). -/
def itemPastDeadline : LockFundsItem :=
  { bounty_id := 7, depositor := 3, amount := 100, deadline := 5,
    token_address := none }

/-- A lock item passing every single-operation precondition at `wLocked`. -/
def goodItem : LockFundsItem :=
  { bounty_id := 7, depositor := 3, amount := 100, deadline := 900,
    token_address := none }

/-- The successful result of this invocation, if any, has the reentrancy
flag cleared. -/
def GuardClearedRes : Res → Prop
  | .ok w => w.re_guard = false
  | _ => True

/-- `wLocked` with the reentrancy flag already held and the deadline
passed. -/
def wGuarded : World := { wLocked with re_guard := true, now := 600 }

/-- A stored approval for bounty 1: 300 units to recipient 9, Custom
mode. -/
def apprA : RefundApproval :=
  { bounty_id := 1, amount := 300, recipient := 9, mode := .Custom,
    approved_by := 1, approved_at := 5 }

/-- `wLocked` with `apprA` stored as the pending refund approval of
bounty 1. -/
def wApp : World := { wLocked with refund_approvals := [(1, apprA)] }

theorem mapGet_mapSet_self {κ α : Type} [DecidableEq κ]
    (m : List (κ × α)) (k : κ) (v : α) : mapGet (mapSet m k v) k = some v := by
  induction m with
  | nil => simp [mapGet, mapSet]
  | cons hd tl ih =>
      obtain ⟨k', v'⟩ := hd
      by_cases h : k' = k <;> simp [mapGet, mapSet, h, ih]

theorem mapGet_mapSet_ne {κ α : Type} [DecidableEq κ]
    (m : List (κ × α)) (k k' : κ) (v : α) (h : k ≠ k') :
    mapGet (mapSet m k v) k' = mapGet m k' := by
  induction m with
  | nil => simp [mapGet, mapSet, h]
  | cons hd tl ih =>
      obtain ⟨k₀, v₀⟩ := hd
      by_cases hk : k₀ = k
      · subst hk
        simp [mapGet, mapSet, h]
      · simp only [mapSet, if_neg hk, mapGet]
        by_cases hk' : k₀ = k' <;> simp [hk', ih]

theorem mapGet_mapRemove_self {κ α : Type} [DecidableEq κ]
    (m : List (κ × α)) (k : κ) : mapGet (mapRemove m k) k = none := by
  induction m with
  | nil => simp [mapGet, mapRemove]
  | cons hd tl ih =>
      obtain ⟨k', v'⟩ := hd
      by_cases h : k' = k <;> simp [mapGet, mapRemove, h, ih]

theorem mapGet_mapRemove_ne {κ α : Type} [DecidableEq κ]
    (m : List (κ × α)) (k k' : κ) (h : k ≠ k') :
    mapGet (mapRemove m k) k' = mapGet m k' := by
  induction m with
  | nil => simp [mapRemove]
  | cons hd tl ih =>
      obtain ⟨k₀, v₀⟩ := hd
      by_cases hk : k₀ = k
      · subst hk
        have hk' : k₀ ≠ k' := h
        simp [mapGet, mapRemove, hk', ih]
      · simp only [mapRemove, if_neg hk, mapGet]
        by_cases hk' : k₀ = k' <;> simp [hk', ih]

/-- Claim C1.  A partial `release_funds` of 400 out of a 1000-unit escrow
transfers 400 to the contributor but zeroes the whole per-asset balance
and subtracts the full 1000 from `remaining_amount` (marking the escrow
`Released`), instead of decreasing balance and `remaining_amount` by the
gross transferred amount 400: the code decrements by `token_balance`, not
by the requested amount. -/
theorem release_funds_partial_drains_full_balance :
    mapGet wLocked.escrows 1 = some escrowA
    ∧ escrowA.remaining_amount = 1000 ∧ sumBalances escrowA = 1000
    ∧ balanceAfter (release_funds wLocked 1 4 none (some 400)) 2 4 = some 400
    ∧ (escrowAfter (release_funds wLocked 1 4 none (some 400)) 1).map
        (fun e => (e.status, e.remaining_amount, sumBalances e)) =
        some (.Released, 0, 0) := by
  refine ⟨by decide, by decide, by decide, by decide, by decide⟩

/-- Claim C2.  Reached by `init`, then `lock_funds` of 100 units, then
`expire` after the deadline: `expire` sets `remaining_amount := 0` but
leaves the per-asset `token_balances` entry at 100, so the sum of
per-asset balances (100) no longer equals `remaining_amount` (0) —
`expire` does not preserve the multi-asset ledger invariant. -/
theorem expire_breaks_balance_ledger_consistency :
    (escrowAfter
      (((init wFresh 1 2).bind fun w => lock_funds_internal w 3 1 100 50 none).bind
        fun w => expire { w with now := 60 } 1) 1).map
      (fun e => (e.status, sumBalances e, e.remaining_amount)) =
      some (.Refunded, 100, 0)
    ∧ (100 : Int) ≠ 0 := by
  exact ⟨by decide, by decide⟩

/-- Claim C3.  A partial refund of 300 from a 1000-unit escrow (after the
deadline) leaves `remaining_amount = 700`, `amount = 700` and a refund
history summing to 300: `refund_internal` decrements `amount` along with
`remaining_amount`, so `remaining_amount = amount - Σ(refund_history)`
fails (700 ≠ 700 - 300) in status `PartiallyRefunded`, contradicting
`check_remaining_amount_consistency` in `invariants.rs`. -/
theorem refund_breaks_remaining_amount_equation :
    (escrowAfter (refund_internal { wLocked with now := 600 } 1 (some 300) none
        .PartialMode none) 1).map
      (fun e => (e.status, e.remaining_amount, e.amount, sumRefunds e)) =
      some (.PartiallyRefunded, 700, 700, 300)
    ∧ (700 : Int) ≠ 700 - 300 := by
  exact ⟨by decide, by decide⟩

/-- Claim C10.  A successful full `release_funds` of the 1000-unit escrow
leaves `payout_history` empty: the function never appends a
`PayoutRecord` anywhere. -/
theorem release_funds_never_records_payout :
    (escrowAfter (release_funds wLocked 1 4 none none) 1).map
      (fun e => (e.status, e.payout_history)) =
      some (.Released, ([] : List PayoutRecord))
    ∧ balanceAfter (release_funds wLocked 1 4 none none) 2 4 = some 1000 := by
  exact ⟨by decide, by decide⟩

/-- Claim C6, counterexample.  For `gross = 2^120 ≥ 0` and the maximal
allowed rate 1000 bp, `gross * rate` overflows `i128`, `checked_mul`
yields `None`, and `calculate_fee` silently returns 0 instead of
`floor(gross * rate / 10000)`. -/
theorem calculate_fee_overflow_returns_zero :
    (0 : Int) ≤ 2 ^ 120 ∧ (1000 : Int) ≤ MAX_FEE_RATE
    ∧ calculate_fee (2 ^ 120) 1000 = 0
    ∧ ((2 : Int) ^ 120 * 1000) / BASIS_POINTS ≠ 0 := by
  refine ⟨by positivity, by decide, by decide, by decide⟩

/-- Claim C6, amended.  Whenever the product `gross * rate_bp` stays inside
`i128` (so `checked_mul` succeeds), the fee is exactly
`floor(gross * rate_bp / 10000)`, and the net amount (`gross - fee`, as
both `lock_funds_internal` and `release_funds` compute it) plus the fee is
exactly `gross`. -/
theorem calculate_fee_exact_in_range (g r : Int) (hg : 0 ≤ g) (hr : 0 ≤ r)
    (hmax : r ≤ MAX_FEE_RATE) (hfit : g * r ≤ I128_MAX) :
    calculate_fee g r = (g * r) / BASIS_POINTS
    ∧ (g - calculate_fee g r) + calculate_fee g r = g := by
  constructor
  · by_cases h0 : r = 0
    · subst h0
      simp [calculate_fee]
    · have hmul : 0 ≤ g * r := mul_nonneg hg hr
      have hmin : I128_MIN ≤ g * r := le_trans (by decide) hmul
      unfold calculate_fee i128CheckedMul
      rw [if_neg h0, if_pos ⟨hmin, hfit⟩]
      exact Int.tdiv_eq_ediv hmul (by decide)
  · ring

/-- Witness for `calculate_fee_exact_in_range` at gross 100 and rate
250 bp. -/
theorem calculate_fee_exact_witness :
    calculate_fee 100 250 = (100 * 250 : Int) / BASIS_POINTS
    ∧ ((100 : Int) - calculate_fee 100 250) + calculate_fee 100 250 = 100 :=
  calculate_fee_exact_in_range 100 250 (by decide) (by decide) (by decide) (by decide)

theorem token_transfer_none_cases {w : World} {tok f t : Nat} {amt : Int}
    (h : token_transfer w tok f t amt = none) :
    amt < 0 ∨ balance_of w tok f < amt := by
  unfold token_transfer at h
  by_cases h1 : amt < 0
  · exact Or.inl h1
  · rw [if_neg h1] at h
    by_cases h2 : balance_of w tok f < amt
    · exact Or.inr h2
    · rw [if_neg h2] at h
      simp at h

theorem refund_body_no_trap (w : World) (bounty_id : Nat) (amount : Option Int)
    (recipient : Option Nat) (mode : RefundMode) (tok : Option Nat) :
    (refund_body w bounty_id amount recipient mode tok).isTrap = false := by
  simp only [refund_body]
  repeat' split <;> try rfl
  all_goals (rename_i h; rcases token_transfer_none_cases h with h1 | h1 <;> omega)

/-- Claim C9, counterexample.  `anti_abuse::check_rate_limit` panics
(`panic!("Operation in cooldown period")`) instead of returning an error:
a depositor who locked funds 2 seconds ago and calls `lock_funds` again
within the 60-second cooldown traps the host rather than receiving a
declared `Error` value. -/
theorem lock_funds_rate_limit_trap :
    lock_funds_internal
      { wLocked with abuse_state :=
          [(3, { last_operation_timestamp := 8, window_start_timestamp := 0,
                 operation_count := 1 })] }
      3 7 100 900 none = .trap := by decide

/-- Claim C9, amended.  `refund_internal`, `expire` and `approve_refund`
never trap: every failure is one of the declared `Error` values (their
token transfers are guarded by explicit amount-positivity and
contract-balance checks, and they never invoke the rate limiter).  The
rate-limited entry points `lock_funds_internal` and `release_funds` can
trap, as `lock_funds_rate_limit_trap` shows. -/
theorem refund_expire_approve_never_trap (w : World) (bounty_id : Nat)
    (amount : Option Int) (recipient : Option Nat) (mode : RefundMode)
    (tok : Option Nat) (amt : Int) (rcpt : Nat) (m : RefundMode) :
    (refund_internal w bounty_id amount recipient mode tok).isTrap = false
    ∧ (expire w bounty_id).isTrap = false
    ∧ (approve_refund w bounty_id amt rcpt m).isTrap = false := by
  refine ⟨?_, ?_, ?_⟩
  · simp only [refund_internal]
    split
    · rfl
    · exact refund_body_no_trap _ _ _ _ _ _
  · simp only [expire]
    repeat' split <;> try rfl
    all_goals (rename_i h; rcases token_transfer_none_cases h with h1 | h1 <;> omega)
  · simp only [approve_refund]
    repeat' split
    all_goals rfl

theorem validate_lock_items_none {w : World} {items all : List LockFundsItem}
    (h : validate_lock_items w items all = none) :
    ∀ item ∈ items, validate_lock_item w all item = none := by
  induction items with
  | nil => intro item hm; cases hm
  | cons hd tl ih =>
      intro item hm
      unfold validate_lock_items at h
      cases hv : validate_lock_item w all hd with
      | some e => rw [hv] at h; cases h
      | none =>
          rw [hv] at h
          rcases List.mem_cons.mp hm with hEq | hTl
          · subst hEq; exact hv
          · exact ih h item hTl

theorem validate_lock_item_none {w : World} {all : List LockFundsItem}
    {item : LockFundsItem} (h : validate_lock_item w all item = none) :
    mapGet w.escrows item.bounty_id = none ∧ 0 < item.amount
    ∧ (get_amount_limits w).min_lock_amount ≤ item.amount
    ∧ item.amount ≤ (get_amount_limits w).max_lock_amount
    ∧ (all.filter (fun o => o.bounty_id = item.bounty_id)).length ≤ 1 := by
  unfold validate_lock_item at h
  by_cases h1 : (mapGet w.escrows item.bounty_id).isSome
  · rw [if_pos h1] at h; cases h
  · rw [if_neg h1] at h
    by_cases h2 : item.amount ≤ 0
    · rw [if_pos h2] at h; cases h
    · rw [if_neg h2] at h
      by_cases h3 : item.amount < (get_amount_limits w).min_lock_amount
          ∨ item.amount > (get_amount_limits w).max_lock_amount
      · rw [if_pos h3] at h; cases h
      · rw [if_neg h3] at h
        by_cases h4 : 1 < (all.filter (fun o => o.bounty_id = item.bounty_id)).length
        · rw [if_pos h4] at h; cases h
        · push_neg at h2 h3 h4
          exact ⟨Option.not_isSome_iff_eq_none.mp h1, h2, h3.1, h3.2, h4⟩

/-- Claim C4, counterexample.  `batch_lock_funds` never validates the
deadline: a one-item batch whose deadline (5) is already past at time 10
succeeds and creates the escrow, while the single-operation
`lock_funds_internal` rejects the very same parameters with
`InvalidDeadline`. -/
theorem batch_lock_skips_deadline_validation :
    itemPastDeadline.deadline ≤ wLocked.now
    ∧ (escrowAfter (batch_lock_funds wLocked [itemPastDeadline]) 7).map
        (fun e => (e.status, e.deadline)) = some (.Locked, 5)
    ∧ lock_funds_internal wLocked 3 7 100 5 none = .err .InvalidDeadline := by
  exact ⟨by decide, by decide, by decide⟩

/-- Claim C4, amended.  The validation phase of `batch_lock_funds` checks,
for every item and without mutating state: unused bounty id, positive
amount within the configured limits, and no duplicate bounty id inside
the batch — but not the deadline (which is never validated) and not token
registration (which is only checked during execution); any failure in
either phase returns an error, and on the host an error rolls the whole
invocation back, so no escrow is created and no transfer survives.
Stated as: success implies every item passed those validation checks
against the pre-state. -/
theorem batch_lock_validates_items_before_execution (w : World)
    (items : List LockFundsItem) (h : (batch_lock_funds w items).isOk = true) :
    ∀ item ∈ items,
      mapGet w.escrows item.bounty_id = none
      ∧ 0 < item.amount
      ∧ (get_amount_limits w).min_lock_amount ≤ item.amount
      ∧ item.amount ≤ (get_amount_limits w).max_lock_amount
      ∧ (items.filter (fun o => o.bounty_id = item.bounty_id)).length = 1 := by
  intro item hm
  have hself : 0 < (items.filter (fun o => o.bounty_id = item.bounty_id)).length :=
    List.length_pos_of_mem (List.mem_filter.mpr ⟨hm, by simp⟩)
  simp only [batch_lock_funds, batch_lock_body] at h
  split at h
  · simp [Res.isOk] at h
  · split at h
    · simp [Res.isOk] at h
    · split at h
      · simp [Res.isOk] at h
      · split at h
        · simp [Res.isOk] at h
        · split at h
          · simp [Res.isOk] at h
          · split at h
            · simp [Res.isOk] at h
            · rename_i hval
              have hv := validate_lock_item_none
                (validate_lock_items_none hval item hm)
              exact ⟨hv.1, hv.2.1, hv.2.2.1, hv.2.2.2.1,
                     le_antisymm hv.2.2.2.2 hself⟩

/-- A successful `check_rate_limit` only updates the anti-abuse state. -/
theorem check_rate_limit_ok_shape {w : World} {a : Nat} {w' : World}
    (h : check_rate_limit w a = .ok w') :
    ∃ st, w' = { w with abuse_state := st } := by
  simp only [check_rate_limit] at h
  split at h
  · cases h
    exact ⟨w.abuse_state, rfl⟩
  · split at h
    · cases h
    · split at h
      · cases h
      · cases h
        exact ⟨_, rfl⟩

theorem guardClearedRes_imp {r : Res} (h : GuardClearedRes r) :
    ∀ w', r = .ok w' → w'.re_guard = false := by
  intro w' hw
  cases r with
  | ok w => cases hw; exact h
  | err e => cases hw
  | trap => cases hw

theorem lock_funds_body_guard_cleared (w : World) (d id : Nat) (amt : Int)
    (dl : Nat) (tok : Option Nat) :
    GuardClearedRes (lock_funds_body w d id amt dl tok) := by
  simp only [lock_funds_body]
  repeat' split
  all_goals first | rfl | trivial

theorem lock_funds_guard_cleared (w : World) (d id : Nat) (amt : Int)
    (dl : Nat) (tok : Option Nat) :
    GuardClearedRes (lock_funds_internal w d id amt dl tok) := by
  simp only [lock_funds_internal]
  cases hcr : check_rate_limit w d <;> simp only [Res.bind]
  · repeat' split
    all_goals first | trivial | exact lock_funds_body_guard_cleared _ _ _ _ _ _
  · trivial
  · trivial

theorem release_funds_body_guard_cleared (w0 : World) (admin id c : Nat)
    (tok : Option Nat) (amt : Option Int) :
    GuardClearedRes (release_funds_body w0 admin id c tok amt) := by
  simp only [release_funds_body]
  cases hcr : check_rate_limit w0 admin <;> simp only [Res.bind]
  · repeat' split
    all_goals first | rfl | trivial
  · trivial
  · trivial

theorem release_funds_guard_cleared (w : World) (id c : Nat)
    (tok : Option Nat) (amt : Option Int) :
    GuardClearedRes (release_funds w id c tok amt) := by
  simp only [release_funds]
  repeat' split
  all_goals first | trivial | exact release_funds_body_guard_cleared _ _ _ _ _ _

theorem refund_body_guard_cleared (w : World) (id : Nat)
    (amt : Option Int) (r : Option Nat) (m : RefundMode) (tok : Option Nat) :
    GuardClearedRes (refund_body w id amt r m tok) := by
  simp only [refund_body]
  repeat' split
  all_goals first | rfl | trivial

theorem refund_internal_guard_cleared (w : World) (id : Nat)
    (amt : Option Int) (r : Option Nat) (m : RefundMode) (tok : Option Nat) :
    GuardClearedRes (refund_internal w id amt r m tok) := by
  simp only [refund_internal]
  split
  · trivial
  · exact refund_body_guard_cleared _ _ _ _ _ _

theorem batch_lock_body_guard_cleared (w : World) (items : List LockFundsItem) :
    GuardClearedRes (batch_lock_body w items) := by
  simp only [batch_lock_body]
  repeat' split
  all_goals try trivial
  all_goals
    (cases he : exec_lock_items _ _ <;> simp only [Res.bind]
     · rfl
     · trivial
     · trivial)

theorem batch_lock_guard_cleared (w : World) (items : List LockFundsItem) :
    GuardClearedRes (batch_lock_funds w items) := by
  simp only [batch_lock_funds]
  split
  · trivial
  · exact batch_lock_body_guard_cleared _ _

theorem batch_release_body_guard_cleared (w : World) (items : List ReleaseFundsItem) :
    GuardClearedRes (batch_release_body w items) := by
  simp only [batch_release_body]
  repeat' split
  all_goals try trivial
  all_goals
    (cases he : exec_release_items _ _ <;> simp only [Res.bind]
     · rfl
     · trivial
     · trivial)

theorem batch_release_guard_cleared (w : World) (items : List ReleaseFundsItem) :
    GuardClearedRes (batch_release_funds w items) := by
  simp only [batch_release_funds]
  split
  · trivial
  · exact batch_release_body_guard_cleared _ _

theorem resWorld_map_guard_ne {r : Res}
    (h : ∀ w', r = .ok w' → w'.re_guard = false) :
    (resWorld r).map World.re_guard ≠ some true := by
  cases r with
  | ok w => simp [resWorld, h w rfl]
  | err e => simp [resWorld]
  | trap => simp [resWorld]

/-- Claim C5, counterexample.  `expire` acquires no reentrancy guard: with
the guard flag already locked (as during a nested call from an outbound
transfer) and the deadline passed, `expire` succeeds and mutates the
escrow instead of failing with the reentrancy error — and it leaves the
flag exactly as it found it. -/
theorem expire_ignores_reentrancy_guard :
    wGuarded.re_guard = true
    ∧ (expire wGuarded 1).isOk = true
    ∧ (resWorld (expire wGuarded 1)).map World.re_guard = some true := by
  exact ⟨rfl, by decide, by decide⟩

/-- Claim C5, amended.  For the guarded entry points — lock, release,
refund and the two batch operations, but not `expire` — a call made while
the guard flag is locked never succeeds: `refund_internal`,
`batch_lock_funds` and `batch_release_funds` fail with `ReentrantCall`
immediately, while `lock_funds_internal` and `release_funds` fail with
`ReentrantCall` unless an even earlier precondition (rate limit,
participant filter, pause, initialization) fails first.  And on every
successful exit the flag is unlocked (on error exits the host rollback
restores it). -/
theorem reentrancy_guard_blocks_and_releases (w : World) :
    (w.re_guard = true →
      (∀ d id amt dl tok, (lock_funds_internal w d id amt dl tok).isOk = false)
      ∧ (∀ id c tok amt, (release_funds w id c tok amt).isOk = false)
      ∧ (∀ id amt r m tok, refund_internal w id amt r m tok = .err .ReentrantCall)
      ∧ (∀ items, batch_lock_funds w items = .err .ReentrantCall)
      ∧ (∀ items, batch_release_funds w items = .err .ReentrantCall))
    ∧ (∀ d id amt dl tok,
        (resWorld (lock_funds_internal w d id amt dl tok)).map World.re_guard ≠ some true)
    ∧ (∀ id c tok amt,
        (resWorld (release_funds w id c tok amt)).map World.re_guard ≠ some true)
    ∧ (∀ id amt r m tok,
        (resWorld (refund_internal w id amt r m tok)).map World.re_guard ≠ some true)
    ∧ (∀ items,
        (resWorld (batch_lock_funds w items)).map World.re_guard ≠ some true)
    ∧ (∀ items,
        (resWorld (batch_release_funds w items)).map World.re_guard ≠ some true) := by
  refine ⟨fun hg => ⟨?_, ?_, ?_, ?_, ?_⟩, ?_, ?_, ?_, ?_, ?_⟩
  · intro d id amt dl tok
    simp only [lock_funds_internal]
    cases hcr : check_rate_limit w d with
    | trap => simp [Res.bind, Res.isOk]
    | err e => simp [Res.bind, Res.isOk]
    | ok w1 =>
        rcases check_rate_limit_ok_shape hcr with ⟨st, rfl⟩
        simp only [Res.bind]
        split
        · rfl
        · split
          · rfl
          · simp [Res.isOk, hg]
  · intro id c tok amt
    simp only [release_funds]
    repeat' split
    all_goals rfl
  · intro id amt r m tok
    simp only [refund_internal]
    rw [if_pos hg]
  · intro items
    simp only [batch_lock_funds]
    rw [if_pos hg]
  · intro items
    simp only [batch_release_funds]
    rw [if_pos hg]
  · intro d id amt dl tok
    exact resWorld_map_guard_ne (guardClearedRes_imp (lock_funds_guard_cleared w d id amt dl tok))
  · intro id c tok amt
    exact resWorld_map_guard_ne (guardClearedRes_imp (release_funds_guard_cleared w id c tok amt))
  · intro id amt r m tok
    exact resWorld_map_guard_ne (guardClearedRes_imp (refund_internal_guard_cleared w id amt r m tok))
  · intro items
    exact resWorld_map_guard_ne (guardClearedRes_imp (batch_lock_guard_cleared w items))
  · intro items
    exact resWorld_map_guard_ne (guardClearedRes_imp (batch_release_guard_cleared w items))

/-- Witness for `reentrancy_guard_blocks_and_releases` at the concrete
guard-locked world `wGuarded`. -/
theorem reentrancy_guard_blocks_witness :
    refund_internal wGuarded 1 none none RefundMode.Full none
        = Res.err Error.ReentrantCall
    ∧ batch_lock_funds wGuarded [goodItem] = Res.err Error.ReentrantCall :=
  ⟨((reentrancy_guard_blocks_and_releases wGuarded).1 rfl).2.2.1 1 none none
      RefundMode.Full none,
   ((reentrancy_guard_blocks_and_releases wGuarded).1 rfl).2.2.2.1 [goodItem]⟩

theorem token_transfer_some_shape {w w' : World} {tok f t : Nat} {amt : Int}
    (h : token_transfer w tok f t amt = some w') :
    ∃ b, w' = { w with balances := b } := by
  unfold token_transfer at h
  split at h
  · cases h
  · split at h
    · cases h
    · cases h
      exact ⟨_, rfl⟩

/-- Inversion of `refund_params` in Custom mode before the deadline: the
request can only succeed through a stored approval exactly matching
amount, recipient and mode, and the returned state is the input state
with the approval removed. -/
theorem refund_params_custom_before_ok {W w3 : World} {e : Escrow} {id : Nat}
    {amt ra : Int} {rcpt rr : Nat} {tb : Int}
    (h : refund_params W e id (some amt) (some rcpt) .Custom true tb = .ok (ra, rr, w3)) :
    ra = amt ∧ rr = rcpt
    ∧ w3 = { W with refund_approvals := mapRemove W.refund_approvals id }
    ∧ ∃ a, mapGet W.refund_approvals id = some a
        ∧ a.amount = amt ∧ a.recipient = rcpt ∧ a.mode = RefundMode.Custom := by
  simp only [refund_params, eq_self_iff_true, if_true] at h
  split at h
  · cases h
  · rename_i a ha
    split at h
    · cases h
    · rename_i hm
      push_neg at hm
      cases h
      exact ⟨rfl, rfl, rfl, a, ha, hm.1, hm.2.1, hm.2.2⟩

/-- Inversion of a successful before-deadline Custom refund through
`refund_body`: it can only have gone through a stored approval matching
the requested amount, recipient and mode, and the approval is removed in
the post-state; clock, escrow deadline and the cleared guard flag of the
post-state are also characterized. -/
theorem refund_body_custom_before_ok {W w2 : World} {id : Nat} {amt : Int}
    {rcpt : Nat} {e : Escrow} (he : mapGet W.escrows id = some e)
    (hd : W.now < e.deadline)
    (hr : refund_body W id (some amt) (some rcpt) .Custom none = .ok w2) :
    (∃ a, mapGet W.refund_approvals id = some a
        ∧ a.amount = amt ∧ a.recipient = rcpt ∧ a.mode = RefundMode.Custom)
    ∧ mapGet w2.refund_approvals id = none
    ∧ w2.now = W.now
    ∧ w2.re_guard = false
    ∧ (∃ e', mapGet w2.escrows id = some e' ∧ e'.deadline = e.deadline) := by
  simp only [refund_body] at hr
  split at hr
  · cases hr
  · split at hr
    · cases hr
    · rename_i e2 heq
      rw [he] at heq
      cases heq
      split at hr
      · cases hr
      · rw [decide_eq_true hd] at hr
        split at hr
        · cases hr
        · rename_i ra rr w3 heq_p
          obtain ⟨hra, hrr, hw3, a, ha, h1, h2, h3⟩ :=
            refund_params_custom_before_ok heq_p
          subst hra hrr hw3
          split at hr
          · cases hr
          · split at hr
            · cases hr
            · split at hr
              · cases hr
              · rename_i w4 htr
                rcases token_transfer_some_shape htr with ⟨b, rfl⟩
                cases hr
                refine ⟨⟨a, ha, h1, h2, h3⟩, ?_, rfl, rfl, ?_⟩
                · exact mapGet_mapRemove_self _ _
                · exact ⟨_, mapGet_mapSet_self _ _ _, rfl⟩

/-- A Custom refund attempted before the deadline with no stored approval
never succeeds. -/
theorem custom_refund_no_approval_not_ok (w : World) (id : Nat) (amt : Int)
    (rcpt : Nat)
    (hdl : ∀ e, mapGet w.escrows id = some e → w.now < e.deadline)
    (happ : mapGet w.refund_approvals id = none) :
    (refund_internal w id (some amt) (some rcpt) .Custom none).isOk = false := by
  simp only [refund_internal]
  split
  · rfl
  · simp only [refund_body]
    split
    · rfl
    · split
      · rfl
      · rename_i e2 heq
        have hd2 : w.now < e2.deadline := hdl e2 heq
        split
        · rfl
        · simp only [refund_params, decide_eq_true hd2, happ, eq_self_iff_true,
            if_true, Res.isOk]

/-- A Custom refund before the deadline whose stored approval mismatches
the request in amount, recipient or mode fails with `RefundNotApproved`
inside `refund_body`. -/
theorem refund_body_custom_mismatch (W : World) (id : Nat) (amt : Int)
    (rcpt : Nat) (e : Escrow) (a : RefundApproval)
    (he : mapGet W.escrows id = some e) (hd : W.now < e.deadline)
    (ha : mapGet W.refund_approvals id = some a)
    (hm' : a.amount ≠ amt ∨ a.recipient ≠ rcpt ∨ a.mode ≠ RefundMode.Custom)
    (hp : is_paused_internal W = false)
    (hs : e.status = EscrowStatus.Locked ∨ e.status = EscrowStatus.PartiallyRefunded) :
    refund_body W id (some amt) (some rcpt) RefundMode.Custom none
      = Res.err Error.RefundNotApproved := by
  rcases hs with hs | hs <;>
    (simp only [refund_body, is_paused_internal] at hp ⊢
     rw [hp]
     simp only [Bool.false_eq_true, if_false, he, hs, decide_eq_true hd,
       refund_params, ha, eq_self_iff_true, if_true, ne_eq, not_false_eq_true,
       and_true, true_and, and_false, false_and, ite_false, ite_true,
       not_true_eq_false]
     rw [if_pos hm'])

theorem token_transfer_some_escrows {w w' : World} {tok f t : Nat} {amt : Int}
    (h : token_transfer w tok f t amt = some w') : w'.escrows = w.escrows := by
  rcases token_transfer_some_shape h with ⟨b, rfl⟩
  rfl

theorem fee_transfer_some_escrows {w w' : World} {c : Prop} [Decidable c]
    {tok f t : Nat} {amt : Int}
    (h : (if c then token_transfer w tok f t amt else some w) = some w') :
    w'.escrows = w.escrows := by
  split at h
  · exact token_transfer_some_escrows h
  · cases h
    rfl

theorem init_ok_escrows {w w' : World} {a t : Nat} (h : init w a t = .ok w') :
    w'.escrows = w.escrows := by
  simp only [init] at h
  cases hcr : check_rate_limit w a <;> rw [hcr] at h <;> simp only [Res.bind] at h
  · rcases check_rate_limit_ok_shape hcr with ⟨st, rfl⟩
    split at h
    · cases h
    · cases h
      rfl
  · cases h
  · cases h

theorem approve_refund_ok_escrows {w w' : World} {bid : Nat} {amt : Int}
    {rcpt : Nat} {m : RefundMode} (h : approve_refund w bid amt rcpt m = .ok w') :
    w'.escrows = w.escrows := by
  simp only [approve_refund] at h
  split at h
  · cases h
  · split at h
    · cases h
    · split at h
      · cases h
      · split at h
        · cases h
        · cases h
          rfl

theorem extend_ok_inv {w w' : World} {bid nd : Nat}
    (h : extend_refund_deadline w bid nd = .ok w') :
    ∃ esc, mapGet w.escrows bid = some esc
      ∧ (esc.status = .Locked ∨ esc.status = .PartiallyRefunded)
      ∧ w'.escrows = mapSet w.escrows bid { esc with deadline := nd } := by
  simp only [extend_refund_deadline] at h
  split at h
  · cases h
  · split at h
    · cases h
    · rename_i esc heq
      split at h
      · cases h
      · rename_i hst
        split at h
        · cases h
        · split at h
          · cases h
          · cases h
            refine ⟨esc, heq, ?_, rfl⟩
            by_cases hls : esc.status = .Locked
            · exact Or.inl hls
            · push_neg at hst
              exact Or.inr (hst hls)

theorem expire_ok_inv {w w' : World} {bid : Nat} (h : expire w bid = .ok w') :
    ∃ esc esc', mapGet w.escrows bid = some esc
      ∧ (esc.status = .Locked ∨ esc.status = .PartiallyRefunded)
      ∧ esc'.status = .Refunded
      ∧ w'.escrows = mapSet w.escrows bid esc' := by
  simp only [expire] at h
  split at h
  · cases h
  · split at h
    · cases h
    · rename_i esc heq
      split at h
      · cases h
      · rename_i hst
        split at h
        · cases h
        · split at h
          · cases h
          · split at h
            · cases h
            · split at h
              · cases h
              · rename_i w4 htr
                rcases token_transfer_some_shape htr with ⟨b, rfl⟩
                cases h
                refine ⟨esc, _, heq, ?_, rfl, rfl⟩
                by_cases hls : esc.status = .Locked
                · exact Or.inl hls
                · push_neg at hst
                  exact Or.inr (hst hls)

theorem fee_transfer_some_shape {w w' : World} {c : Prop} [Decidable c]
    {tok f t : Nat} {amt : Int}
    (h : (if c then token_transfer w tok f t amt else some w) = some w') :
    ∃ b, w' = { w with balances := b } := by
  split at h
  · exact token_transfer_some_shape h
  · cases h
    exact ⟨w.balances, rfl⟩

theorem lock_body_ok_inv {W w' : World} {d bid : Nat} {amt : Int} {dl : Nat}
    {tok : Option Nat} (h : lock_funds_body W d bid amt dl tok = .ok w') :
    mapGet W.escrows bid = none
    ∧ ∃ esc', w'.escrows = mapSet W.escrows bid esc' := by
  simp only [lock_funds_body] at h
  split at h
  · cases h
  · split at h
    · cases h
    · split at h
      · cases h
      · split at h
        · cases h
        · split at h
          · cases h
          · rename_i hne
            split at h
            · cases h
            · split at h
              · cases h
              · rename_i w2 htr2
                rcases token_transfer_some_shape htr2 with ⟨b2, rfl⟩
                split at h
                · cases h
                · rename_i w3 htr3
                  rcases fee_transfer_some_shape htr3 with ⟨b3, rfl⟩
                  cases h
                  exact ⟨Option.not_isSome_iff_eq_none.mp hne, _, rfl⟩

theorem lock_ok_inv {w w' : World} {d bid : Nat} {amt : Int} {dl : Nat}
    {tok : Option Nat} (h : lock_funds_internal w d bid amt dl tok = .ok w') :
    mapGet w.escrows bid = none
    ∧ ∃ esc', w'.escrows = mapSet w.escrows bid esc' := by
  simp only [lock_funds_internal] at h
  cases hcr : check_rate_limit w d <;> rw [hcr] at h <;> simp only [Res.bind] at h
  · rcases check_rate_limit_ok_shape hcr with ⟨st, rfl⟩
    split at h
    · cases h
    · split at h
      · cases h
      · split at h
        · cases h
        · obtain ⟨h1, esc', h2⟩ := lock_body_ok_inv h
          exact ⟨h1, esc', h2⟩
  · cases h
  · cases h

theorem release_body_ok_inv {W w' : World} {admin bid c : Nat}
    {tok : Option Nat} {amt : Option Int}
    (h : release_funds_body W admin bid c tok amt = .ok w') :
    ∃ esc esc', mapGet W.escrows bid = some esc
      ∧ (esc.status = .Locked ∨ esc.status = .PartiallyReleased)
      ∧ (esc'.status = .Released ∨ esc'.status = .PartiallyReleased)
      ∧ w'.escrows = mapSet W.escrows bid esc' := by
  simp only [release_funds_body] at h
  cases hcr : check_rate_limit W admin <;> rw [hcr] at h <;> simp only [Res.bind] at h
  · rcases check_rate_limit_ok_shape hcr with ⟨st, rfl⟩
    split at h
    · cases h
    · rename_i esc heq
      split at h
      · cases h
      · rename_i hst
        split at h
        · cases h
        · split at h
          · cases h
          · split at h
            · cases h
            · split at h
              · cases h
              · split at h
                · cases h
                · split at h
                  · cases h
                  · rename_i w2 htr2
                    rcases token_transfer_some_shape htr2 with ⟨b2, rfl⟩
                    split at h
                    · cases h
                    · rename_i w3 htr3
                      rcases fee_transfer_some_shape htr3 with ⟨b3, rfl⟩
                      cases h
                      refine ⟨esc, _, heq, ?_, ?_, rfl⟩
                      · by_cases hls : esc.status = .Locked
                        · exact Or.inl hls
                        · push_neg at hst
                          exact Or.inr (hst hls)
                      · dsimp only
                        split
                        · exact Or.inl rfl
                        · exact Or.inr rfl
  · cases h
  · cases h

theorem release_ok_inv {w w' : World} {bid c : Nat} {tok : Option Nat}
    {amt : Option Int} (h : release_funds w bid c tok amt = .ok w') :
    ∃ esc esc', mapGet w.escrows bid = some esc
      ∧ (esc.status = .Locked ∨ esc.status = .PartiallyReleased)
      ∧ (esc'.status = .Released ∨ esc'.status = .PartiallyReleased)
      ∧ w'.escrows = mapSet w.escrows bid esc' := by
  simp only [release_funds] at h
  split at h
  · cases h
  · split at h
    · cases h
    · split at h
      · cases h
      · split at h
        · cases h
        · obtain ⟨esc, esc', h1, h2, h3, h4⟩ := release_body_ok_inv h
          exact ⟨esc, esc', h1, h2, h3, h4⟩

theorem refund_params_ok_shape {W w3 : World} {e : Escrow} {id : Nat}
    {amount : Option Int} {recipient : Option Nat} {mode : RefundMode}
    {before : Bool} {tb ra : Int} {rr : Nat}
    (h : refund_params W e id amount recipient mode before tb = .ok (ra, rr, w3)) :
    ∃ apps, w3 = { W with refund_approvals := apps } := by
  cases mode <;> simp only [refund_params] at h
  · split at h
    · cases h
    · cases h
      exact ⟨W.refund_approvals, rfl⟩
  · split at h
    · cases h
    · cases h
      exact ⟨W.refund_approvals, rfl⟩
  · split at h
    · cases h
    · split at h
      · cases h
      · split at h
        · split at h
          · cases h
          · split at h
            · cases h
            · cases h
              exact ⟨_, rfl⟩
        · cases h
          exact ⟨W.refund_approvals, rfl⟩

theorem refund_body_ok_inv {W w' : World} {bid : Nat} {amt : Option Int}
    {rcpt : Option Nat} {m : RefundMode} {tok : Option Nat}
    (h : refund_body W bid amt rcpt m tok = .ok w') :
    ∃ esc esc', mapGet W.escrows bid = some esc
      ∧ (esc.status = .Locked ∨ esc.status = .PartiallyRefunded)
      ∧ (esc'.status = .Refunded ∨ esc'.status = .PartiallyRefunded)
      ∧ w'.escrows = mapSet W.escrows bid esc' := by
  simp only [refund_body] at h
  split at h
  · cases h
  · split at h
    · cases h
    · rename_i esc heq
      split at h
      · cases h
      · rename_i hst
        split at h
        · cases h
        · split at h
          · cases h
          · rename_i ra rr w3 heq_p
            obtain ⟨apps, rfl⟩ := refund_params_ok_shape heq_p
            split at h
            · cases h
            · split at h
              · cases h
              · split at h
                · cases h
                · rename_i w4 htr
                  rcases token_transfer_some_shape htr with ⟨b, rfl⟩
                  cases h
                  refine ⟨esc, _, heq, ?_, ?_, rfl⟩
                  · by_cases hls : esc.status = .Locked
                    · exact Or.inl hls
                    · push_neg at hst
                      exact Or.inr (hst hls)
                  · dsimp only
                    split
                    · exact Or.inl rfl
                    · exact Or.inr rfl

theorem refund_ok_inv {w w' : World} {bid : Nat} {amt : Option Int}
    {rcpt : Option Nat} {m : RefundMode} {tok : Option Nat}
    (h : refund_internal w bid amt rcpt m tok = .ok w') :
    ∃ esc esc', mapGet w.escrows bid = some esc
      ∧ (esc.status = .Locked ∨ esc.status = .PartiallyRefunded)
      ∧ (esc'.status = .Refunded ∨ esc'.status = .PartiallyRefunded)
      ∧ w'.escrows = mapSet w.escrows bid esc' := by
  simp only [refund_internal] at h
  split at h
  · cases h
  · obtain ⟨esc, esc', h1, h2, h3, h4⟩ := refund_body_ok_inv h
    exact ⟨esc, esc', h1, h2, h3, h4⟩

theorem filter_tail_length_le {α : Type} (p : α → Bool) (a : α) (l : List α) :
    (l.filter p).length ≤ ((a :: l).filter p).length := by
  rw [List.filter_cons]
  split
  · rw [List.length_cons]
    exact Nat.le_succ _
  · exact Nat.le_refl _

theorem head_filter_unique {α : Type} {p : α → Bool} {a : α} {l : List α}
    (hpa : p a = true) (hlen : ((a :: l).filter p).length ≤ 1) :
    ∀ x ∈ l, p x = false := by
  intro x hx
  rw [List.filter_cons, if_pos hpa, List.length_cons] at hlen
  have h0 : l.filter p = [] := List.length_eq_zero.mp (by omega)
  cases hpx : p x with
  | false => rfl
  | true =>
      have hmem : x ∈ l.filter p := List.mem_filter.mpr ⟨hx, hpx⟩
      rw [h0] at hmem
      cases hmem

theorem exec_lock_items_untouched {items : List LockFundsItem} {w w' : World}
    {id : Nat} (h : exec_lock_items w items = .ok w')
    (hne : ∀ i ∈ items, i.bounty_id ≠ id) :
    mapGet w'.escrows id = mapGet w.escrows id := by
  induction items generalizing w with
  | nil =>
      simp only [exec_lock_items] at h
      cases h
      rfl
  | cons item rest ih =>
      simp only [exec_lock_items] at h
      split at h
      · cases h
      · split at h
        · cases h
        · rename_i w2 htr2
          rcases token_transfer_some_shape htr2 with ⟨b2, rfl⟩
          split at h
          · cases h
          · rename_i w3 htr3
            rcases fee_transfer_some_shape htr3 with ⟨b3, rfl⟩
            have hrest : ∀ i ∈ rest, i.bounty_id ≠ id :=
              fun i hi => hne i (List.mem_cons_of_mem _ hi)
            rw [ih h hrest]
            exact mapGet_mapSet_ne _ _ _ _
              (fun hEq => hne item (List.mem_cons_self _ _) hEq)

theorem exec_release_items_untouched {items : List ReleaseFundsItem}
    {w w' : World} {id : Nat} (h : exec_release_items w items = .ok w')
    (hne : ∀ i ∈ items, i.bounty_id ≠ id) :
    mapGet w'.escrows id = mapGet w.escrows id := by
  induction items generalizing w with
  | nil =>
      simp only [exec_release_items] at h
      cases h
      rfl
  | cons item rest ih =>
      simp only [exec_release_items] at h
      split at h
      · cases h
      · split at h
        · cases h
        · rename_i w2 htr2
          rcases token_transfer_some_shape htr2 with ⟨b2, rfl⟩
          split at h
          · cases h
          · rename_i w3 htr3
            rcases fee_transfer_some_shape htr3 with ⟨b3, rfl⟩
            have hrest : ∀ i ∈ rest, i.bounty_id ≠ id :=
              fun i hi => hne i (List.mem_cons_of_mem _ hi)
            rw [ih h hrest]
            exact mapGet_mapSet_ne _ _ _ _
              (fun hEq => hne item (List.mem_cons_self _ _) hEq)

theorem validate_release_items_ok {w : World} {items all : List ReleaseFundsItem}
    {total total' : Int}
    (h : validate_release_items w items all total = .ok total') :
    ∀ item ∈ items, validate_release_item w all item = none := by
  induction items generalizing total with
  | nil => intro i hi; cases hi
  | cons hd tl ih =>
      intro i hi
      unfold validate_release_items at h
      cases hv : validate_release_item w all hd with
      | some e => rw [hv] at h; cases h
      | none =>
          rcases List.mem_cons.mp hi with hEq | hTl
          · subst hEq; exact hv
          · simp only [hv] at h
            cases hm : mapGet w.escrows hd.bounty_id with
            | none => rw [hm] at h; cases h
            | some escrow =>
                simp only [hm] at h
                cases hadd : i128CheckedAdd total escrow.amount with
                | none => rw [hadd] at h; cases h
                | some t2 => rw [hadd] at h; exact ih h i hTl

theorem validate_release_item_none {w : World} {all : List ReleaseFundsItem}
    {item : ReleaseFundsItem} (h : validate_release_item w all item = none) :
    ∃ esc, mapGet w.escrows item.bounty_id = some esc
      ∧ esc.status = .Locked
      ∧ (all.filter (fun o => o.bounty_id = item.bounty_id)).length ≤ 1 := by
  simp only [validate_release_item] at h
  split at h
  · cases h
  · rename_i esc heq
    split at h
    · cases h
    · rename_i hst
      split at h
      · cases h
      · split at h
        · cases h
        · rename_i hdup
          push_neg at hdup
          exact ⟨esc, heq, not_not.mp hst, hdup⟩

theorem exec_release_items_inv {items : List ReleaseFundsItem} {w w' : World}
    {id : Nat} {e : Escrow}
    (h : exec_release_items w items = .ok w')
    (he : mapGet w.escrows id = some e)
    (hdist : ∀ i ∈ items,
      (items.filter (fun o => o.bounty_id = i.bounty_id)).length ≤ 1) :
    ∃ e', mapGet w'.escrows id = some e'
      ∧ (e' = e ∨ e'.status = .Released ∨ e'.status = e.status) := by
  induction items generalizing w with
  | nil =>
      simp only [exec_release_items] at h
      cases h
      exact ⟨e, he, Or.inl rfl⟩
  | cons item rest ih =>
      simp only [exec_release_items] at h
      split at h
      · cases h
      · rename_i escrow heq
        split at h
        · cases h
        · rename_i w2 htr2
          rcases token_transfer_some_shape htr2 with ⟨b2, rfl⟩
          split at h
          · cases h
          · rename_i w3 htr3
            rcases fee_transfer_some_shape htr3 with ⟨b3, rfl⟩
            by_cases hid : item.bounty_id = id
            · subst hid
              rw [he] at heq
              cases heq
              have hdup := hdist item (List.mem_cons_self _ _)
              have hrestne : ∀ i ∈ rest, i.bounty_id ≠ item.bounty_id := by
                intro i hi hEq
                have := head_filter_unique (by simp) hdup i hi
                rw [hEq] at this
                simp at this
              have hpost := exec_release_items_untouched h hrestne
              rw [hpost, mapGet_mapSet_self]
              refine ⟨_, rfl, Or.inr ?_⟩
              simp only [release_item_escrow]
              split
              · exact Or.inl rfl
              · exact Or.inr rfl
            · have he' : mapGet
                  (mapSet w.escrows item.bounty_id
                    (release_item_escrow escrow escrow.token_address
                      ((mapGet escrow.token_balances escrow.token_address).getD
                        escrow.remaining_amount))) id = some e := by
                rw [mapGet_mapSet_ne _ _ _ _ hid]
                exact he
              have hdist' : ∀ i ∈ rest,
                  (rest.filter (fun o => o.bounty_id = i.bounty_id)).length ≤ 1 :=
                fun i hi => Nat.le_trans (filter_tail_length_le _ item rest)
                  (hdist i (List.mem_cons_of_mem _ hi))
              exact ih h he' hdist'

theorem batch_lock_ok_inv {w w' : World} {items : List LockFundsItem}
    {id : Nat} {e : Escrow} (h : batch_lock_funds w items = .ok w')
    (he : mapGet w.escrows id = some e) :
    mapGet w'.escrows id = some e := by
  simp only [batch_lock_funds, batch_lock_body] at h
  split at h
  · cases h
  · split at h
    · cases h
    · split at h
      · cases h
      · split at h
        · cases h
        · split at h
          · cases h
          · split at h
            · cases h
            · rename_i hval
              cases hex : exec_lock_items { w with re_guard := true } items <;>
                rw [hex] at h <;> simp only [Res.bind] at h
              · cases h
                have hne : ∀ i ∈ items, i.bounty_id ≠ id := by
                  intro i hi hEq
                  have hv := (validate_lock_item_none
                    (validate_lock_items_none hval i hi)).1
                  rw [hEq] at hv
                  exact Option.noConfusion (he.symm.trans hv)
                exact (exec_lock_items_untouched hex hne).trans he
              · cases h
              · cases h

theorem batch_release_ok_inv {w w' : World} {items : List ReleaseFundsItem}
    {id : Nat} {e : Escrow} (h : batch_release_funds w items = .ok w')
    (he : mapGet w.escrows id = some e) :
    ∃ e', mapGet w'.escrows id = some e'
      ∧ (e' = e ∨ (e.status = .Locked
          ∧ (e'.status = .Released ∨ e'.status = .Locked))) := by
  simp only [batch_release_funds, batch_release_body] at h
  split at h
  · cases h
  · split at h
    · cases h
    · split at h
      · cases h
      · split at h
        · cases h
        · split at h
          · cases h
          · split at h
            · cases h
            · rename_i total' hval
              cases hex : exec_release_items { w with re_guard := true } items <;>
                rw [hex] at h <;> simp only [Res.bind] at h
              · cases h
                have hdist : ∀ i ∈ items,
                    (items.filter (fun o => o.bounty_id = i.bounty_id)).length ≤ 1 :=
                  fun i hi => (validate_release_item_none
                    (validate_release_items_ok hval i hi)).choose_spec.2.2
                obtain ⟨e', hmap, hcase⟩ := exec_release_items_inv hex he hdist
                refine ⟨e', hmap, ?_⟩
                rcases hcase with hcase | hcase | hcase
                · exact Or.inl hcase
                · by_cases hin : ∃ i ∈ items, i.bounty_id = id
                  · obtain ⟨i, hi, hij⟩ := hin
                    obtain ⟨esc, hesc, hLock, -⟩ := validate_release_item_none
                      (validate_release_items_ok hval i hi)
                    rw [hij] at hesc
                    have hee : esc = e := Option.some.inj (hesc.symm.trans he)
                    exact Or.inr ⟨hee ▸ hLock, Or.inl hcase⟩
                  · push_neg at hin
                    have hne : ∀ i ∈ items, i.bounty_id ≠ id := hin
                    have := exec_release_items_untouched hex hne
                    rw [this] at hmap
                    exact Or.inl (Option.some.inj (hmap.symm.trans he))
                · by_cases hin : ∃ i ∈ items, i.bounty_id = id
                  · obtain ⟨i, hi, hij⟩ := hin
                    obtain ⟨esc, hesc, hLock, -⟩ := validate_release_item_none
                      (validate_release_items_ok hval i hi)
                    rw [hij] at hesc
                    have hee : esc = e := Option.some.inj (hesc.symm.trans he)
                    have heL : e.status = EscrowStatus.Locked := hee ▸ hLock
                    exact Or.inr ⟨heL, Or.inr (hcase.trans heL)⟩
                  · push_neg at hin
                    have hne : ∀ i ∈ items, i.bounty_id ≠ id := hin
                    have := exec_release_items_untouched hex hne
                    rw [this] at hmap
                    exact Or.inl (Option.some.inj (hmap.symm.trans he))
              · cases h
              · cases h

/-- Claim C7.  For an escrow that exists and whose deadline has not passed,
a Custom-mode `refund_internal`: (1) succeeds only when a stored
`RefundApproval` exists whose amount, recipient and mode exactly match
the request, and on success the approval is deleted and an identical
second call fails; (2) if the stored approval mismatches the request in
amount, recipient or mode, the call fails with `RefundNotApproved` — and
since an error return rolls the invocation back, the stored approval is
untouched. -/
theorem custom_refund_requires_and_consumes_matching_approval
    (w : World) (id : Nat) (amt : Int) (rcpt : Nat) (e : Escrow)
    (he : mapGet w.escrows id = some e) (hd : w.now < e.deadline) :
    ((refund_internal w id (some amt) (some rcpt) RefundMode.Custom none).isOk = true →
      (∃ a, mapGet w.refund_approvals id = some a
          ∧ a.amount = amt ∧ a.recipient = rcpt ∧ a.mode = RefundMode.Custom)
      ∧ (resWorld (refund_internal w id (some amt) (some rcpt) RefundMode.Custom none)).map
          (fun w2 => mapGet w2.refund_approvals id) = some none
      ∧ (resWorld (refund_internal w id (some amt) (some rcpt) RefundMode.Custom none)).map
          (fun w2 => (refund_internal w2 id (some amt) (some rcpt) RefundMode.Custom none).isOk)
          = some false)
    ∧ (∀ a, mapGet w.refund_approvals id = some a →
        ¬ (a.amount = amt ∧ a.recipient = rcpt ∧ a.mode = RefundMode.Custom) →
        w.re_guard = false → w.is_paused = false →
        (e.status = EscrowStatus.Locked ∨ e.status = EscrowStatus.PartiallyRefunded) →
        refund_internal w id (some amt) (some rcpt) RefundMode.Custom none
          = Res.err Error.RefundNotApproved) := by
  constructor
  · intro hok
    cases hr : refund_internal w id (some amt) (some rcpt) RefundMode.Custom none with
    | err e2 => rw [hr] at hok; cases hok
    | trap => rw [hr] at hok; cases hok
    | ok w2 =>
        have hg : w.re_guard = false := by
          by_cases hgg : w.re_guard = true
          · exfalso
            simp only [refund_internal] at hr
            rw [if_pos hgg] at hr
            cases hr
          · simpa using hgg
        have hb : refund_body { w with re_guard := true } id (some amt) (some rcpt)
            RefundMode.Custom none = .ok w2 := by
          simp only [refund_internal] at hr
          rwa [if_neg (by simp [hg])] at hr
        obtain ⟨hex, happ2, hnow, hguard2, e', he', hdl'⟩ :=
          refund_body_custom_before_ok (W := { w with re_guard := true })
            he hd hb
        refine ⟨hex, ?_, ?_⟩
        · simp only [resWorld, Option.map, happ2]
        · have hrep : (refund_internal w2 id (some amt) (some rcpt)
              RefundMode.Custom none).isOk = false := by
            apply custom_refund_no_approval_not_ok
            · intro e3 he3
              rw [he'] at he3
              cases he3
              rw [hnow]
              rw [hdl']
              exact hd
            · exact happ2
          simp only [resWorld, Option.map, hrep]
  · intro a ha hm hg hp hs
    have hm' : a.amount ≠ amt ∨ a.recipient ≠ rcpt ∨ a.mode ≠ RefundMode.Custom := by
      tauto
    simp only [refund_internal]
    rw [if_neg (by simp [hg])]
    exact refund_body_custom_mismatch _ id amt rcpt e a he hd ha hm' hp hs

/-- Witness for `custom_refund_requires_and_consumes_matching_approval`:
at `wApp` the matching Custom refund of 300 to recipient 9 succeeds,
consumes the approval, and an identical second call fails. -/
theorem custom_refund_approval_witness :
    (∃ a, mapGet wApp.refund_approvals 1 = some a
        ∧ a.amount = 300 ∧ a.recipient = 9 ∧ a.mode = RefundMode.Custom)
    ∧ (resWorld (refund_internal wApp 1 (some 300) (some 9) RefundMode.Custom none)).map
        (fun w2 => mapGet w2.refund_approvals 1) = some none
    ∧ (resWorld (refund_internal wApp 1 (some 300) (some 9) RefundMode.Custom none)).map
        (fun w2 => (refund_internal w2 1 (some 300) (some 9) RefundMode.Custom none).isOk)
        = some false :=
  (custom_refund_requires_and_consumes_matching_approval wApp 1 300 9 escrowA
    (by decide) (by decide)).1 (by decide)

theorem batch_lock_validates_witness :
    mapGet wLocked.escrows goodItem.bounty_id = none
    ∧ 0 < goodItem.amount
    ∧ (get_amount_limits wLocked).min_lock_amount ≤ goodItem.amount
    ∧ goodItem.amount ≤ (get_amount_limits wLocked).max_lock_amount
    ∧ ([goodItem].filter (fun o => o.bounty_id = goodItem.bounty_id)).length = 1 :=
  batch_lock_validates_items_before_execution wLocked [goodItem] (by decide)
    goodItem (by decide)

/-- Claim C8.  Escrow status transitions follow the spec's state-machine
graph: for every operation (`step`) that succeeds, and every escrow id
present both before and after, either the status is unchanged or the pair
of old/new statuses is an edge of the graph (`Locked` to the four others,
`PartiallyReleased` to itself or `Released`, `PartiallyRefunded` to
itself or `Refunded`); and the terminal statuses `Released` and
`Refunded` are absorbing — the whole escrow record of a terminal escrow
is left untouched by every operation. -/
theorem status_transitions_follow_graph (op : Op) (w w' : World) (id : Nat)
    (e e' : Escrow) (hstep : step w op = .ok w')
    (hpre : mapGet w.escrows id = some e)
    (hpost : mapGet w'.escrows id = some e') :
    (e'.status = e.status ∨ statusEdge e.status e'.status = true)
    ∧ (terminalStatus e.status = true → e' = e) := by
  cases op with
  | opInit a t =>
      rw [init_ok_escrows hstep, hpre] at hpost
      cases hpost
      exact ⟨Or.inl rfl, fun _ => rfl⟩
  | opApprove bid amt rcpt m =>
      rw [approve_refund_ok_escrows hstep, hpre] at hpost
      cases hpost
      exact ⟨Or.inl rfl, fun _ => rfl⟩
  | opLock d bid amt dl tok =>
      obtain ⟨hnone, esc2, hset⟩ := lock_ok_inv hstep
      have hne : bid ≠ id := fun hEq => by
        rw [hEq, hpre] at hnone
        cases hnone
      rw [hset, mapGet_mapSet_ne _ _ _ _ hne, hpre] at hpost
      cases hpost
      exact ⟨Or.inl rfl, fun _ => rfl⟩
  | opExtend bid nd =>
      obtain ⟨esc, heq, hst, hset⟩ := extend_ok_inv hstep
      by_cases hid : bid = id
      · subst hid
        rw [hpre] at heq
        cases heq
        rw [hset, mapGet_mapSet_self] at hpost
        cases hpost
        refine ⟨Or.inl rfl, fun hterm => ?_⟩
        rcases hst with h1 | h1 <;> rw [h1] at hterm <;>
          exact absurd hterm (by decide)
      · rw [hset, mapGet_mapSet_ne _ _ _ _ hid, hpre] at hpost
        cases hpost
        exact ⟨Or.inl rfl, fun _ => rfl⟩
  | opRelease bid c tok amt =>
      obtain ⟨esc, esc2, heq, hst1, hst2, hset⟩ := release_ok_inv hstep
      by_cases hid : bid = id
      · subst hid
        rw [hpre] at heq
        cases heq
        rw [hset, mapGet_mapSet_self] at hpost
        cases hpost
        constructor
        · rcases hst1 with h1 | h1 <;> rcases hst2 with h2 | h2 <;>
            rw [h1, h2] <;> exact Or.inr rfl
        · intro hterm
          rcases hst1 with h1 | h1 <;> rw [h1] at hterm <;>
            exact absurd hterm (by decide)
      · rw [hset, mapGet_mapSet_ne _ _ _ _ hid, hpre] at hpost
        cases hpost
        exact ⟨Or.inl rfl, fun _ => rfl⟩
  | opExpire bid =>
      obtain ⟨esc, esc2, heq, hst1, hst2, hset⟩ := expire_ok_inv hstep
      by_cases hid : bid = id
      · subst hid
        rw [hpre] at heq
        cases heq
        rw [hset, mapGet_mapSet_self] at hpost
        cases hpost
        constructor
        · rcases hst1 with h1 | h1 <;> rw [h1, hst2] <;> exact Or.inr rfl
        · intro hterm
          rcases hst1 with h1 | h1 <;> rw [h1] at hterm <;>
            exact absurd hterm (by decide)
      · rw [hset, mapGet_mapSet_ne _ _ _ _ hid, hpre] at hpost
        cases hpost
        exact ⟨Or.inl rfl, fun _ => rfl⟩
  | opRefund bid amt rcpt m tok =>
      obtain ⟨esc, esc2, heq, hst1, hst2, hset⟩ := refund_ok_inv hstep
      by_cases hid : bid = id
      · subst hid
        rw [hpre] at heq
        cases heq
        rw [hset, mapGet_mapSet_self] at hpost
        cases hpost
        constructor
        · rcases hst1 with h1 | h1 <;> rcases hst2 with h2 | h2 <;>
            rw [h1, h2] <;> exact Or.inr rfl
        · intro hterm
          rcases hst1 with h1 | h1 <;> rw [h1] at hterm <;>
            exact absurd hterm (by decide)
      · rw [hset, mapGet_mapSet_ne _ _ _ _ hid, hpre] at hpost
        cases hpost
        exact ⟨Or.inl rfl, fun _ => rfl⟩
  | opBatchLock items =>
      rw [batch_lock_ok_inv hstep hpre] at hpost
      cases hpost
      exact ⟨Or.inl rfl, fun _ => rfl⟩
  | opBatchRelease items =>
      obtain ⟨e2, hmap, hcase⟩ := batch_release_ok_inv hstep hpre
      rw [hmap] at hpost
      cases hpost
      rcases hcase with hcase | ⟨hL, hcase⟩
      · subst hcase
        exact ⟨Or.inl rfl, fun _ => rfl⟩
      · constructor
        · rcases hcase with h2 | h2
          · rw [h2, hL]
            exact Or.inr rfl
          · rw [h2, hL]
            exact Or.inl rfl
        · intro hterm
          rw [hL] at hterm
          exact absurd hterm (by decide)

/-- Witness for `status_transitions_follow_graph`: extending the refund
deadline of the `Locked` escrow 1 at `wLocked` succeeds, and the theorem
yields the status conclusion for it. -/
theorem status_transitions_graph_witness :
    step wLocked (.opExtend 1 600)
        = .ok { wLocked with
                 escrows := mapSet wLocked.escrows 1 { escrowA with deadline := 600 } }
    ∧ (({ escrowA with deadline := 600 } : Escrow).status = escrowA.status
        ∨ statusEdge escrowA.status ({ escrowA with deadline := 600 } : Escrow).status
            = true) :=
  ⟨by decide,
   (status_transitions_follow_graph (.opExtend 1 600) wLocked
      { wLocked with
         escrows := mapSet wLocked.escrows 1 { escrowA with deadline := 600 } }
      1 escrowA { escrowA with deadline := 600 }
      (by decide) (by decide) (by decide)).1⟩
